import Mathlib

/-!
Verification of the reconciliation core of `cloud/amazon/ec2_route_tables.py`.

The Python module reconciles a declarative list of desired route tables
against the live route tables of one VPC.  The definitions below are a
shallow embedding of the source functions (`find_matching_route`,
`find_matching_association`, `find_matching_table`, `delete_tables`,
`create_tables`, `format_response` and the planning/executing part of
`main`).  Remote boto calls are modelled as an explicit operation trace,
and the provider's reaction to those calls (which is external to the
repository) is modelled from the spec where the theorems need it.

Python conventions are embedded explicitly: optional string attributes are
`Option String` with Python truthiness (`None` and the empty string are
falsy), a `dict` lookup that can raise `KeyError` and `list.remove` that
can raise `ValueError` return `Except String`.
-/

set_option maxHeartbeats 1000000

namespace EC2RT

/-- Python truthiness of an optional string attribute: `None` and `""` are falsy. -/
def truthy : Option String → Bool
  | none => false
  | some s => s != ""

/-- A subnet of the VPC: identifier and CIDR block (boto `Subnet`). -/
structure Subnet where
  id : String
  cidr_block : String
  deriving DecidableEq, Repr

/-- A live route of a route table (boto `Route`): destination CIDR, optional
gateway id, optional instance id.  The provider-injected local route carries
`gateway_id = some "local"`. -/
structure RouteInfo where
  destination_cidr_block : Option String
  gateway_id : Option String
  instance_id : Option String
  deriving DecidableEq, Repr

/-- A live route-table association (boto `RouteAssociation`): association id,
associated subnet id, and the main-association flag. -/
structure RTAssociation where
  id : String
  subnet_id : String
  main : Bool
  deriving DecidableEq, Repr

/-- A live route table (boto `RouteTable`). -/
structure RouteTable where
  id : String
  routes : List RouteInfo
  associations : List RTAssociation
  deriving DecidableEq, Repr

/-- The VPC's internet gateway (boto `InternetGateway`): only its id is used. -/
structure Gateway where
  id : String
  deriving DecidableEq, Repr

/-- A requested route from the module parameters: `{dest: ..., gw: ...}` where
`gw` is either the keyword `"igw"` or a literal instance id. -/
structure DesiredRoute where
  dest : String
  gw : String
  deriving DecidableEq, Repr

/-- A requested route table from the module parameters:
`{subnets: [cidr, ...], routes: [...]}`. -/
structure DesiredTable where
  routes : List DesiredRoute
  subnets : List String
  deriving DecidableEq, Repr

/-- The subnet mapper of `main` is a Python dict from strings to subnets. -/
def SubnetMapper := String → Option Subnet

/-- Lookup in a Python dict built from a list of key/value pairs: the last
binding of a key wins. -/
def dictLookup (l : List (String × Subnet)) (k : String) : Option Subnet :=
  (l.reverse.find? (fun p => p.1 == k)).map (fun p => p.2)

/-- The subnet mapper built by `main` (src lines 239-242): one dict keyed by
subnet id, merged with one keyed by subnet CIDR block; on a (never expected)
key collision the CIDR entries win because they are added last. -/
def build_subnet_mapper (subnets : List Subnet) : SubnetMapper :=
  dictLookup (subnets.map (fun s => (s.id, s)) ++ subnets.map (fun s => (s.cidr_block, s)))

/-- Loop body of `find_matching_route` (src lines 132-142): a live route is kept
(returned) exactly when none of the three `continue` guards fires.  The guards
are side-effect free, so the `if`/`elif` chain is equivalent to this
conjunction of negations. -/
def route_satisfies (route : RouteInfo) (requested_route : DesiredRoute) (gateway : Gateway) : Bool :=
  !(truthy route.gateway_id && (requested_route.gw != "igw" || route.gateway_id != some gateway.id)) &&
  !(truthy route.instance_id && route.instance_id != some requested_route.gw) &&
  !(truthy route.destination_cidr_block && route.destination_cidr_block != some requested_route.dest)

/-- Route Equivalence Checker: `find_matching_route` (src lines 131-143) returns
the first live route that satisfies the requested route, else `None`.  The
`subnet_mapper` parameter is accepted and unused, as in the source. -/
def find_matching_route (existing_routes : List RouteInfo) (requested_route : DesiredRoute)
    (_subnet_mapper : SubnetMapper) (gateway : Gateway) : Option RouteInfo :=
  existing_routes.find? (fun route => route_satisfies route requested_route gateway)

/-- Association Equivalence Checker: `find_matching_association` (src lines
145-149).  The dict access `subnet_mapper[association.subnet_id]` raises
`KeyError` when the key is absent, modelled by `Except.error`. -/
def find_matching_association (existing_associations : List RTAssociation)
    (requested_subnet : String) (subnet_mapper : SubnetMapper) :
    Except String (Option RTAssociation) :=
  match existing_associations with
  | [] => .ok none
  | association :: rest =>
    match subnet_mapper association.subnet_id with
    | none => .error "KeyError"
    | some s =>
      if requested_subnet == s.cidr_block then .ok (some association)
      else find_matching_association rest requested_subnet subnet_mapper

/-- Inner loop of `find_matching_table` over the requested routes (src lines
159-164): every requested route must find a matching live route. -/
def all_routes_match (routes : List RouteInfo) (requested_routes : List DesiredRoute)
    (subnet_mapper : SubnetMapper) (gateway : Gateway) : Bool :=
  requested_routes.all (fun r => (find_matching_route routes r subnet_mapper gateway).isSome)

/-- Inner loop of `find_matching_table` over the requested subnets (src lines
169-174): stops at the first requested subnet with no matching association; a
`KeyError` inside `find_matching_association` aborts. -/
def all_subnets_match (associations : List RTAssociation) (requested_subnets : List String)
    (subnet_mapper : SubnetMapper) : Except String Bool :=
  match requested_subnets with
  | [] => .ok true
  | s :: rest =>
    match find_matching_association associations s subnet_mapper with
    | .error e => .error e
    | .ok none => .ok false
    | .ok (some _) => all_subnets_match associations rest subnet_mapper

/-- Loop body of `find_matching_table` (src lines 153-176): whether one live
table satisfies the requested table.  The provider-injected local route is
excluded by its `gateway_id` marker before any comparison (src line 155). -/
def table_matches (table : RouteTable) (requested_table : DesiredTable)
    (subnet_mapper : SubnetMapper) (gateway : Gateway) : Except String Bool :=
  let routes := table.routes.filter (fun route => route.gateway_id != some "local")
  if requested_table.routes.length != routes.length then .ok false
  else if !(all_routes_match routes requested_table.routes subnet_mapper gateway) then .ok false
  else if requested_table.subnets.length != table.associations.length then .ok false
  else all_subnets_match table.associations requested_table.subnets subnet_mapper

/-- Table Matcher: `find_matching_table` (src lines 152-177) returns the first
live table satisfying the requested table, else `None`. -/
def find_matching_table (existing_tables : List RouteTable) (requested_table : DesiredTable)
    (subnet_mapper : SubnetMapper) (gateway : Gateway) : Except String (Option RouteTable) :=
  match existing_tables with
  | [] => .ok none
  | table :: rest => do
    let b ← table_matches table requested_table subnet_mapper gateway
    if b then .ok (some table) else find_matching_table rest requested_table subnet_mapper gateway

/-- A remote mutating call issued by the module.  The provider-chosen id of a
newly created table is recorded in the `createTable` operation (the source
reads it off the object returned by `create_route_table`). -/
inductive Op where
  | disassociate (association_id : String)
  | deleteTable (table_id : String)
  | createTable (table_id : String) (vpc_id : String)
  | createRoute (table_id : String) (dest : String) (gateway_id : Option String) (instance_id : Option String)
  | associate (table_id : String) (subnet_id : String)
  deriving DecidableEq, Repr

/-- Loop of `delete_tables` over one table's associations (src lines 102-107):
the disassociation calls issued for the non-main associations. -/
def delete_assoc_ops : List RTAssociation → List Op
  | [] => []
  | association :: rest =>
    if !association.main then Op.disassociate association.id :: delete_assoc_ops rest
    else delete_assoc_ops rest

/-- Executor deletion path: `delete_tables` (src lines 100-109) as the sequence
of remote calls it issues.  The loop's `is_main` flag ends up true exactly when
some association of the table is main, so the delete call is skipped exactly
for tables whose associations include a main marker (src line 108). -/
def delete_tables (tables : List RouteTable) : List Op :=
  match tables with
  | [] => []
  | table :: rest =>
    delete_assoc_ops table.associations ++
      (if table.associations.any (fun a => a.main) then [] else [Op.deleteTable table.id]) ++
      delete_tables rest

/-- Identifier of the n-th table created in a run.  The provider chooses fresh
identifiers; they are modelled by an injective fresh-name scheme. -/
def fresh_table_id (n : Nat) : String :=
  "rtb-new-" ++ String.mk (List.replicate n 'i')

/-- Route-creation calls for one requested table (src lines 117-122): the
keyword `"igw"` is resolved to the gateway id, anything else is passed as a
literal instance target. -/
def create_route_ops (new_table_id : String) (gateway_id : String) :
    List DesiredRoute → List Op
  | [] => []
  | route :: rest =>
    (if route.gw == "igw" then Op.createRoute new_table_id route.dest (some gateway_id) none
     else Op.createRoute new_table_id route.dest none (some route.gw))
      :: create_route_ops new_table_id gateway_id rest

/-- Association calls for one requested table (src lines 124-125): each
requested subnet CIDR is resolved through the mapper; a missing key raises
`KeyError` after the earlier calls of the loop were already issued.  The first
component is the list of calls issued, the second the loop outcome. -/
def create_assoc_ops (new_table_id : String) (subnet_mapper : SubnetMapper) :
    List String → List Op × Except String Unit
  | [] => ([], .ok ())
  | subnet_cidr :: rest =>
    match subnet_mapper subnet_cidr with
    | none => ([], .error "KeyError")
    | some s =>
      (Op.associate new_table_id s.id :: (create_assoc_ops new_table_id subnet_mapper rest).1,
       (create_assoc_ops new_table_id subnet_mapper rest).2)

/-- Executor creation path: `create_tables` (src lines 112-128) as the sequence
of remote calls it issues, together with the error outcome (a `KeyError` keeps
the calls already issued). -/
def create_tables (vpc_id : String) (gateway_id : String) (tables : List DesiredTable)
    (subnet_mapper : SubnetMapper) (fresh : Nat) : List Op × Except String Unit :=
  match tables with
  | [] => ([], .ok ())
  | table :: rest =>
    match (create_assoc_ops (fresh_table_id fresh) subnet_mapper table.subnets).2 with
    | .error e =>
      (Op.createTable (fresh_table_id fresh) vpc_id ::
        (create_route_ops (fresh_table_id fresh) gateway_id table.routes ++
         (create_assoc_ops (fresh_table_id fresh) subnet_mapper table.subnets).1),
       .error e)
    | .ok _ =>
      (Op.createTable (fresh_table_id fresh) vpc_id ::
        (create_route_ops (fresh_table_id fresh) gateway_id table.routes ++
         (create_assoc_ops (fresh_table_id fresh) subnet_mapper table.subnets).1 ++
         (create_tables vpc_id gateway_id rest subnet_mapper (fresh + 1)).1),
       (create_tables vpc_id gateway_id rest subnet_mapper (fresh + 1)).2)

/-- Python `list.remove` (src line 251): removes the first equal element,
raises `ValueError` when the element is absent. -/
def list_remove (l : List RouteTable) (x : RouteTable) : Except String (List RouteTable) :=
  match l with
  | [] => .error "ValueError"
  | y :: ys =>
    if y == x then .ok ys
    else do
      let ys2 ← list_remove ys x
      .ok (y :: ys2)

/-- Result of the planning loop of `main`. -/
structure PlanResult where
  new_tables : List DesiredTable
  matched_tables : List RouteTable
  old_tables : List RouteTable
  deriving DecidableEq, Repr

/-- The matching loop of `main` (src lines 247-253).  Note that every requested
table is matched against the full `existing_tables` list; only `old_tables`
shrinks as matches are removed from it. -/
def plan_loop (existing_tables : List RouteTable) (subnet_mapper : SubnetMapper)
    (gateway : Gateway) (requested : List DesiredTable)
    (new_tables : List DesiredTable) (matched_tables old_tables : List RouteTable) :
    Except String PlanResult :=
  match requested with
  | [] => .ok ⟨new_tables, matched_tables, old_tables⟩
  | requested_table :: rest =>
    match find_matching_table existing_tables requested_table subnet_mapper gateway with
    | .error e => .error e
    | .ok (some matching_table) =>
      match list_remove old_tables matching_table with
      | .error e => .error e
      | .ok old2 =>
        plan_loop existing_tables subnet_mapper gateway rest
          new_tables (matched_tables ++ [matching_table]) old2
    | .ok none =>
      plan_loop existing_tables subnet_mapper gateway rest
        (new_tables ++ [requested_table]) matched_tables old_tables

/-- Outcome of the Reconciliation Planner. -/
structure Plan where
  new_tables : List DesiredTable
  matched_tables : List RouteTable
  old_tables : List RouteTable
  changed : Bool
  deriving DecidableEq, Repr

/-- Reconciliation Planner of `main` (src lines 244-255): partition the
requested tables into matched and to-create, the live tables into matched and
to-delete, and compute the `changed` flag. -/
def make_plan (existing_tables : List RouteTable) (requested : List DesiredTable)
    (subnet_mapper : SubnetMapper) (gateway : Gateway) : Except String Plan := do
  let r ← plan_loop existing_tables subnet_mapper gateway requested [] [] existing_tables
  .ok ⟨r.new_tables, r.matched_tables, r.old_tables,
       decide (r.old_tables.length > 0 ∨ r.new_tables.length > 0)⟩

/-- Reported shape of one live route (src lines 88-92). -/
structure RouteResponse where
  cidr : Option String
  gateway_id : Option String
  instance_id : Option String
  deriving DecidableEq, Repr

/-- Reported shape of one live association (src lines 93-96). -/
structure AssociationResponse where
  subnet_id : String
  is_main : Bool
  deriving DecidableEq, Repr

/-- Reported shape of one live table (src lines 86-97). -/
structure TableResponse where
  id : String
  routes : List RouteResponse
  associations : List AssociationResponse
  deriving DecidableEq, Repr

/-- `format_response` (src lines 85-98). -/
def format_response (route_tables : List RouteTable) : List TableResponse :=
  route_tables.map (fun table =>
    ⟨table.id,
     table.routes.map (fun route =>
       ⟨route.destination_cidr_block, route.gateway_id, route.instance_id⟩),
     table.associations.map (fun a => ⟨a.subnet_id, a.main⟩)⟩)

/-- Modelled from the spec: the provider-injected local route that every route
table carries from creation (spec §3, LiveRoute).  The source never constructs
it, it only filters it out by its `gateway_id` marker (src line 155); its
destination is never observed by the core. -/
def local_route : RouteInfo := ⟨none, some "local", none⟩

/-- Modelled from the spec: the provider's reaction to one Executor remote call
(spec §4.6 and §6, collaborator interfaces; the calls themselves are external
to the repository).  Creating a table yields an empty table carrying only the
implicit local route; association ids of new associations are derived
deterministically from the table and subnet ids. -/
def applyOp (st : List RouteTable) : Op → List RouteTable
  | .disassociate aid =>
    st.map (fun t => { t with associations := t.associations.filter (fun a => a.id != aid) })
  | .deleteTable tid => st.filter (fun t => t.id != tid)
  | .createTable tid _ => st ++ [⟨tid, [local_route], []⟩]
  | .createRoute tid dest gid iid =>
    st.map (fun t =>
      if t.id == tid then { t with routes := t.routes ++ [⟨some dest, gid, iid⟩] } else t)
  | .associate tid sid =>
    st.map (fun t =>
      if t.id == tid then
        { t with associations := t.associations ++ [⟨"assoc-" ++ tid ++ "-" ++ sid, sid, false⟩] }
      else t)

/-- Modelled from the spec: the provider state after a sequence of calls. -/
def applyOps (st : List RouteTable) (ops : List Op) : List RouteTable :=
  ops.foldl applyOp st

/-- Filter applied by `main` when fetching the matching universe (src lines
233-236): tables having any main association are excluded. -/
def non_main_tables (tables : List RouteTable) : List RouteTable :=
  tables.filter (fun t => (t.associations.filter (fun a => a.main)).length == 0)

/-- Outcome of one reconciliation run. -/
structure RunResult where
  changed : Bool
  route_tables : List TableResponse
  final_state : List RouteTable
  deriving DecidableEq, Repr

/-- The reconciliation core of `main` (src lines 198, 231-263): read the unused
`state` parameter, filter out tables with a main association, plan, delete the
unmatched live tables, create the unmatched requested tables, re-fetch and
report.  Returns the trace of remote mutating calls issued (kept also on a
failed run, since calls already made are not rolled back) together with the
module outcome. -/
def run_module (state : String) (vpc_id : String) (gateway : Gateway)
    (subnets : List Subnet) (requested : List DesiredTable)
    (all_tables : List RouteTable) (fresh : Nat) :
    List Op × Except String RunResult :=
  match make_plan (non_main_tables all_tables) requested (build_subnet_mapper subnets) gateway with
  | .error e => ([], .error e)
  | .ok plan =>
    match create_tables vpc_id gateway.id plan.new_tables (build_subnet_mapper subnets) fresh with
    | (cre_ops, .error e) => (delete_tables plan.old_tables ++ cre_ops, .error e)
    | (cre_ops, .ok _) =>
      (delete_tables plan.old_tables ++ cre_ops,
       .ok ⟨plan.changed,
            format_response (applyOps all_tables (delete_tables plan.old_tables ++ cre_ops)),
            applyOps all_tables (delete_tables plan.old_tables ++ cre_ops)⟩)

/-- Modelled from the spec: the Reconciliation Planner as §4.5 words it — each
desired table scans only the REMAINING unmatched live pool, and a match is
removed from that pool.  This definition exists only to contrast the spec's
wording with the behaviour of `make_plan`. -/
def spec_planner_loop (subnet_mapper : SubnetMapper) (gateway : Gateway) :
    List DesiredTable → List DesiredTable → List RouteTable → List RouteTable →
    Except String PlanResult
  | [], new, matched, pool => .ok ⟨new, matched, pool⟩
  | d :: rest, new, matched, pool => do
    let m ← find_matching_table pool d subnet_mapper gateway
    match m with
    | some t => spec_planner_loop subnet_mapper gateway rest new (matched ++ [t]) (pool.erase t)
    | none => spec_planner_loop subnet_mapper gateway rest (new ++ [d]) matched pool

/-- Modelled from the spec: planner following §4.5 verbatim (see
`spec_planner_loop`). -/
def spec_planner (pool : List RouteTable) (requested : List DesiredTable)
    (subnet_mapper : SubnetMapper) (gateway : Gateway) : Except String Plan := do
  let r ← spec_planner_loop subnet_mapper gateway requested [] [] pool
  .ok ⟨r.new_tables, r.matched_tables, r.old_tables,
       decide (r.old_tables.length > 0 ∨ r.new_tables.length > 0)⟩

/-! ### Basic lemmas about the equivalence checkers -/

theorem truthy_some_iff (o : Option String) : truthy o = true ↔ ∃ s, o = some s ∧ s ≠ "" := by
  cases o with
  | none => simp [truthy]
  | some s => simp [truthy]

/-- C3: for every live route, desired route, and gateway: a live route with a
gateway identifier set satisfies the desired route only if the desired gateway
specifier is the symbolic keyword `"igw"` and the live gateway identifier
equals the resolved gateway's identifier; otherwise, a live route with a
target-instance identifier set satisfies the desired route only if that
identifier equals the desired gateway specifier literal; and when the live
route's destination CIDR is present it must equal the desired destination
exactly. -/
theorem C3_route_equivalence_rules (route : RouteInfo) (req : DesiredRoute) (g : Gateway) :
    (truthy route.gateway_id = true →
        route_satisfies route req g = true →
        req.gw = "igw" ∧ route.gateway_id = some g.id) ∧
    (truthy route.gateway_id = false → truthy route.instance_id = true →
        route_satisfies route req g = true →
        route.instance_id = some req.gw) ∧
    (truthy route.destination_cidr_block = true →
        route_satisfies route req g = true →
        route.destination_cidr_block = some req.dest) := by
  unfold route_satisfies
  refine ⟨fun hg hs => ?_, fun _ hi hs => ?_, fun hd hs => ?_⟩ <;>
    simp only [Bool.and_eq_true] at hs <;>
    obtain ⟨⟨hs1, hs2⟩, hs3⟩ := hs
  · rw [Bool.not_eq_true', Bool.and_eq_false_iff] at hs1
    rcases hs1 with h | h
    · exact absurd h (by simp [hg])
    · rw [Bool.or_eq_false_iff, bne_eq_false_iff_eq, bne_eq_false_iff_eq] at h
      exact h
  · rw [Bool.not_eq_true', Bool.and_eq_false_iff] at hs2
    rcases hs2 with h | h
    · exact absurd h (by simp [hi])
    · rwa [bne_eq_false_iff_eq] at h
  · rw [Bool.not_eq_true', Bool.and_eq_false_iff] at hs3
    rcases hs3 with h | h
    · exact absurd h (by simp [hd])
    · rwa [bne_eq_false_iff_eq] at h

/-- Witness for C3: concrete instantiations discharging each hypothesis. -/
theorem C3_route_equivalence_rules_witness :
    ("igw" = "igw" ∧ some "igw-1" = some "igw-1") ∧
    (some "i-abc" : Option String) = some "i-abc" ∧
    (some "0.0.0.0/0" : Option String) = some "0.0.0.0/0" :=
  ⟨(C3_route_equivalence_rules ⟨some "0.0.0.0/0", some "igw-1", none⟩ ⟨"0.0.0.0/0", "igw"⟩
      ⟨"igw-1"⟩).1 (by decide) (by decide),
   (C3_route_equivalence_rules ⟨some "0.0.0.0/0", none, some "i-abc"⟩ ⟨"0.0.0.0/0", "i-abc"⟩
      ⟨"igw-1"⟩).2.1 (by decide) (by decide) (by decide),
   (C3_route_equivalence_rules ⟨some "0.0.0.0/0", none, none⟩ ⟨"0.0.0.0/0", "i-abc"⟩
      ⟨"igw-1"⟩).2.2 (by decide) (by decide)⟩

/-- C9: a live route whose gateway identifier and target-instance identifier
are both unset, and whose destination CIDR is either unset or equal to the
desired destination, satisfies any desired route regardless of the desired
gateway specifier. -/
theorem C9_blank_route_matches_everything (route : RouteInfo) (req : DesiredRoute) (g : Gateway)
    (h1 : route.gateway_id = none) (h2 : route.instance_id = none)
    (h3 : route.destination_cidr_block = none ∨ route.destination_cidr_block = some req.dest) :
    route_satisfies route req g = true := by
  unfold route_satisfies
  rcases h3 with h3 | h3 <;> simp [h1, h2, h3, truthy]

/-- Witness for C9: a live route with all attributes unset satisfies a desired
instance route. -/
theorem C9_blank_route_matches_everything_witness :
    route_satisfies ⟨none, none, none⟩ ⟨"0.0.0.0/0", "i-abc"⟩ ⟨"igw-1"⟩ = true :=
  C9_blank_route_matches_everything ⟨none, none, none⟩ ⟨"0.0.0.0/0", "i-abc"⟩ ⟨"igw-1"⟩
    rfl rfl (Or.inl rfl)

/-! ### The state parameter is dead (C8) -/

/-- C8: the behaviour of the run does NOT depend on the `state` parameter: the
module reads it (src line 198) and never consults it, so `state=absent`
performs exactly the same reconciliation as `state=present` instead of tearing
down the non-main tables. -/
theorem C8_state_parameter_ignored (s1 s2 : String) (vpc_id : String) (g : Gateway)
    (subnets : List Subnet) (requested : List DesiredTable)
    (all_tables : List RouteTable) (fresh : Nat) :
    run_module s1 vpc_id g subnets requested all_tables fresh =
      run_module s2 vpc_id g subnets requested all_tables fresh := rfl

/-! ### The planner aborts when two desired tables match one live table (C10) -/

/-- C10: matched live tables are removed only from the to-delete list while
every desired table is matched against the full live list; hence with a single
live table satisfying two desired tables, the second `list.remove` raises
`ValueError` and the run aborts instead of producing a plan. -/
theorem C10_double_match_aborts (t : RouteTable) (d1 d2 : DesiredTable)
    (m : SubnetMapper) (g : Gateway)
    (h1 : table_matches t d1 m g = .ok true)
    (h2 : table_matches t d2 m g = .ok true) :
    make_plan [t] [d1, d2] m g = .error "ValueError" := by
  simp [make_plan, plan_loop, find_matching_table, h1, h2, list_remove,
    Bind.bind, Except.bind]

/-- Witness for C10: an empty desired table is satisfied by a live table with
no non-local routes and no associations. -/
theorem C10_double_match_aborts_witness :
    make_plan [⟨"rtb-1", [], []⟩] [⟨[], []⟩, ⟨[], []⟩] (fun _ => none) ⟨"igw-1"⟩ =
      .error "ValueError" :=
  C10_double_match_aborts ⟨"rtb-1", [], []⟩ ⟨[], []⟩ ⟨[], []⟩ (fun _ => none) ⟨"igw-1"⟩
    rfl rfl

/-! ### Cardinality invariant of the Table Matcher (C2) -/

theorem find_matching_table_ok_some (existing : List RouteTable) (req : DesiredTable)
    (m : SubnetMapper) (g : Gateway) (t : RouteTable)
    (h : find_matching_table existing req m g = .ok (some t)) :
    table_matches t req m g = .ok true ∧ t ∈ existing := by
  induction existing with
  | nil => simp [find_matching_table] at h
  | cons table rest ih =>
    rw [find_matching_table] at h
    cases hm : table_matches table req m g with
    | error e => rw [hm] at h; simp [Bind.bind, Except.bind] at h
    | ok b =>
      rw [hm] at h
      simp only [Bind.bind, Except.bind] at h
      cases b with
      | true =>
        rw [if_pos rfl] at h
        simp only [Except.ok.injEq, Option.some.injEq] at h
        subst h
        exact ⟨hm, List.mem_cons_self _ _⟩
      | false =>
        rw [if_neg (by simp)] at h
        have := ih h
        exact ⟨this.1, List.mem_cons_of_mem _ this.2⟩

/-- C2: the Table Matcher accepts a live table for a desired table only if the
desired route count equals the live non-local route count and the desired
subnet count equals the live association count. -/
theorem C2_cardinality_invariant (existing : List RouteTable) (req : DesiredTable)
    (m : SubnetMapper) (g : Gateway) (t : RouteTable)
    (h : find_matching_table existing req m g = .ok (some t)) :
    req.routes.length =
        (t.routes.filter (fun route => route.gateway_id != some "local")).length ∧
    req.subnets.length = t.associations.length := by
  have hm := (find_matching_table_ok_some existing req m g t h).1
  simp only [table_matches] at hm
  cases hc1 : (req.routes.length !=
      (t.routes.filter (fun route => route.gateway_id != some "local")).length) with
  | true => rw [if_pos hc1] at hm; exact absurd hm (by simp)
  | false =>
    refine ⟨by rwa [bne_eq_false_iff_eq] at hc1, ?_⟩
    rw [if_neg (by simp [hc1])] at hm
    cases hc2 : (!all_routes_match
        (t.routes.filter (fun route => route.gateway_id != some "local")) req.routes m g) with
    | true => rw [if_pos hc2] at hm; exact absurd hm (by simp)
    | false =>
      rw [if_neg (by simp [hc2])] at hm
      cases hc3 : (req.subnets.length != t.associations.length) with
      | true => rw [if_pos hc3] at hm; exact absurd hm (by simp)
      | false => rwa [bne_eq_false_iff_eq] at hc3

/-- Witness for C2: a concrete accepted pairing with equal cardinalities. -/
theorem C2_cardinality_invariant_witness :
    ([] : List DesiredRoute).length =
        (([] : List RouteInfo).filter (fun route => route.gateway_id != some "local")).length ∧
    ([] : List String).length = ([] : List RTAssociation).length :=
  C2_cardinality_invariant [⟨"rtb-1", [], []⟩] ⟨[], []⟩ (fun _ => none) ⟨"igw-1"⟩
    ⟨"rtb-1", [], []⟩ rfl

/-! ### Characterization of the Planner (infrastructure for C1, C4, C5, C7) -/

theorem list_remove_ok (l : List RouteTable) (x : RouteTable) (r : List RouteTable)
    (h : list_remove l x = .ok r) : x ∈ l ∧ r = l.erase x := by
  induction l generalizing r with
  | nil => simp [list_remove] at h
  | cons y ys ih =>
    rw [list_remove] at h
    by_cases hy : (y == x) = true
    · rw [if_pos hy] at h
      simp only [Except.ok.injEq] at h
      have hyx : y = x := by simpa using hy
      subst hyx
      subst h
      simp [List.erase_cons_head]
    · rw [if_neg hy] at h
      cases hrec : list_remove ys x with
      | error e => rw [hrec] at h; simp [Bind.bind, Except.bind] at h
      | ok ys2 =>
        rw [hrec] at h
        simp only [Bind.bind, Except.bind, Except.ok.injEq] at h
        obtain ⟨hmem, hys2⟩ := ih ys2 hrec
        subst hys2
        subst h
        have hne : ¬ y = x := fun he => hy (by simp [he])
        constructor
        · exact List.mem_cons_of_mem _ hmem
        · rw [List.erase_cons_tail]
          simp [hne]

theorem list_remove_of_mem (l : List RouteTable) (x : RouteTable) (h : x ∈ l) :
    list_remove l x = .ok (l.erase x) := by
  induction l with
  | nil => simp at h
  | cons y ys ih =>
    rw [list_remove]
    by_cases hy : (y == x) = true
    · have hyx : y = x := by simpa using hy
      subst hyx
      rw [if_pos hy, List.erase_cons_head]
    · rw [if_neg hy]
      have hne : ¬ y = x := fun he => hy (by simp [he])
      have hmem : x ∈ ys := by
        rcases List.mem_cons.mp h with he | hm
        · exact absurd he.symm hne
        · exact hm
      rw [ih hmem]
      simp only [Bind.bind, Except.bind]
      rw [List.erase_cons_tail]
      simp [hne]

/-- Live tables that the planning loop removes from the to-delete pool, in
requested order: for each requested table, the first live table of the full
existing list that satisfies it (if any). -/
def matched_list (existing : List RouteTable) (m : SubnetMapper) (g : Gateway)
    (requested : List DesiredTable) : List RouteTable :=
  requested.filterMap (fun d =>
    match find_matching_table existing d m g with
    | .ok (some t) => some t
    | _ => none)

theorem matched_list_nil (existing : List RouteTable) (m : SubnetMapper) (g : Gateway) :
    matched_list existing m g [] = [] := rfl

theorem matched_list_cons_none (existing : List RouteTable) (m : SubnetMapper) (g : Gateway)
    (d : DesiredTable) (rest : List DesiredTable)
    (h : find_matching_table existing d m g = .ok none) :
    matched_list existing m g (d :: rest) = matched_list existing m g rest := by
  simp [matched_list, List.filterMap_cons, h]

theorem matched_list_cons_some (existing : List RouteTable) (m : SubnetMapper) (g : Gateway)
    (d : DesiredTable) (rest : List DesiredTable) (t : RouteTable)
    (h : find_matching_table existing d m g = .ok (some t)) :
    matched_list existing m g (d :: rest) = t :: matched_list existing m g rest := by
  simp [matched_list, List.filterMap_cons, h]

/-- Full characterization of a successful planning loop: the to-create list
collects the requested tables with no match, the matched list collects (in
order) the matches found against the full existing list, the to-delete pool is
the old pool minus the matched tables, the matched tables are distinct members
of the old pool, and no lookup raised. -/
theorem plan_loop_ok_char (existing : List RouteTable) (m : SubnetMapper) (g : Gateway)
    (rest : List DesiredTable) :
    ∀ (new : List DesiredTable) (matched old : List RouteTable) (r : PlanResult),
      old.Nodup →
      plan_loop existing m g rest new matched old = .ok r →
      r.new_tables = new ++ rest.filter (fun d =>
          match find_matching_table existing d m g with
          | .ok none => true
          | _ => false) ∧
      r.matched_tables = matched ++ matched_list existing m g rest ∧
      r.old_tables = old.filter (fun t => !((matched_list existing m g rest).contains t)) ∧
      matched_list existing m g rest ⊆ old ∧
      (matched_list existing m g rest).Nodup ∧
      (∀ d ∈ rest, ∃ o, find_matching_table existing d m g = .ok o) := by
  induction rest with
  | nil =>
    intro new matched old r _ h
    rw [plan_loop] at h
    simp only [Except.ok.injEq] at h
    subst h
    simp [matched_list_nil, List.filter_true]
  | cons d rest ih =>
    intro new matched old r hnd h
    rw [plan_loop] at h
    split at h
    · exact absurd h (by simp)
    · rename_i t0 hm
      split at h
      · exact absurd h (by simp)
      · rename_i old2 hrem
        obtain ⟨ht0old, hold2⟩ := list_remove_ok old t0 old2 hrem
        have hnd2 : old2.Nodup := hold2 ▸ hnd.erase t0
        obtain ⟨h1, h2, h3, h4, h5, h6⟩ := ih new (matched ++ [t0]) old2 r hnd2 h
        rw [matched_list_cons_some existing m g d rest t0 hm]
        have hsub2 : matched_list existing m g rest ⊆ old := fun x hx =>
          List.erase_subset t0 old (hold2 ▸ h4 hx)
        have ht0notml : t0 ∉ matched_list existing m g rest := by
          intro hc
          have h7 : t0 ∈ old2 := h4 hc
          rw [hold2] at h7
          exact hnd.not_mem_erase h7
        refine ⟨?_, ?_, ?_, ?_, ?_, ?_⟩
        · rw [h1, List.filter_cons_of_neg (by simp [hm])]
        · simp [h2]
        · rw [h3, hold2, hnd.erase_eq_filter t0, List.filter_filter]
          apply List.filter_congr
          intro x _
          simp only [List.contains_cons, Bool.not_or, bne]
          exact Bool.and_comm _ _
        · exact List.cons_subset.mpr ⟨ht0old, hsub2⟩
        · exact List.nodup_cons.mpr ⟨ht0notml, h5⟩
        · intro d2 hd2
          rcases List.mem_cons.mp hd2 with he | hmem
          · exact ⟨some t0, he ▸ hm⟩
          · exact h6 d2 hmem
    · rename_i hm
      obtain ⟨h1, h2, h3, h4, h5, h6⟩ := ih (new ++ [d]) matched old r hnd h
      rw [matched_list_cons_none existing m g d rest hm]
      refine ⟨?_, h2, h3, h4, h5, ?_⟩
      · rw [h1, List.filter_cons_of_pos (by simp [hm])]
        simp
      · intro d2 hd2
        rcases List.mem_cons.mp hd2 with he | hmem
        · exact ⟨none, he ▸ hm⟩
        · exact h6 d2 hmem

/-- The to-create characterization alone, needing no distinctness of the pool. -/
theorem plan_loop_ok_new (existing : List RouteTable) (m : SubnetMapper) (g : Gateway)
    (rest : List DesiredTable) :
    ∀ (new : List DesiredTable) (matched old : List RouteTable) (r : PlanResult),
      plan_loop existing m g rest new matched old = .ok r →
      r.new_tables = new ++ rest.filter (fun d =>
          match find_matching_table existing d m g with
          | .ok none => true
          | _ => false) := by
  induction rest with
  | nil =>
    intro new matched old r h
    rw [plan_loop] at h
    simp only [Except.ok.injEq] at h
    subst h
    simp
  | cons d rest ih =>
    intro new matched old r h
    rw [plan_loop] at h
    split at h
    · exact absurd h (by simp)
    · rename_i t0 hm
      split at h
      · exact absurd h (by simp)
      · rename_i old2 hrem
        rw [ih new (matched ++ [t0]) old2 r h, List.filter_cons_of_neg (by simp [hm])]
    · rename_i hm
      rw [ih (new ++ [d]) matched old r h, List.filter_cons_of_pos (by simp [hm])]
      simp

/-- C1 (amended): on a successful run the planner behaves as claimed except
that the scan is over the full live list: the to-create list collects exactly
the desired tables with no satisfying live table, the to-delete list collects
exactly the live tables never claimed by a desired table, the matched list
collects (in desired order) the first satisfying live table of the full list
for each matched desired table, and `changed` is true iff to-delete or
to-create is non-empty. -/
theorem C1_planner_characterization (existing : List RouteTable)
    (requested : List DesiredTable) (m : SubnetMapper) (g : Gateway) (p : Plan)
    (hnd : existing.Nodup)
    (h : make_plan existing requested m g = .ok p) :
    p.new_tables = requested.filter (fun d =>
        match find_matching_table existing d m g with
        | .ok none => true
        | _ => false) ∧
    p.old_tables = existing.filter
        (fun t => !((matched_list existing m g requested).contains t)) ∧
    p.matched_tables = matched_list existing m g requested ∧
    p.changed = (!p.old_tables.isEmpty || !p.new_tables.isEmpty) := by
  rw [make_plan] at h
  cases hr : plan_loop existing m g requested [] [] existing with
  | error e => rw [hr] at h; simp [Bind.bind, Except.bind] at h
  | ok r =>
    rw [hr] at h
    simp only [Bind.bind, Except.bind, Except.ok.injEq] at h
    obtain ⟨h1, h2, h3, _, _, _⟩ := plan_loop_ok_char existing m g requested [] [] existing r hnd hr
    subst h
    refine ⟨by simpa using h1, by simpa using h3, by simpa using h2, ?_⟩
    simp only
    rw [h3, h1]
    cases hod : existing.filter (fun t => !((matched_list existing m g requested).contains t)) <;>
      cases hnw : List.filter (fun d =>
          match find_matching_table existing d m g with
          | .ok none => true
          | _ => false) requested <;>
    simp [hod, hnw]

/-- Counterexample to C1 as stated: with one live table satisfying both of two
identical desired tables, the code's planner aborts with `ValueError` (the
scan considers the already matched live table again), while a planner that
scans only the remaining unmatched pool — as the claim describes — returns a
plan marking the second desired table "to create". -/
theorem C1_counterexample :
    make_plan [⟨"rtb-1", [], []⟩] [⟨[], []⟩, ⟨[], []⟩] (fun _ => none) ⟨"igw-1"⟩ =
      .error "ValueError" ∧
    spec_planner [⟨"rtb-1", [], []⟩] [⟨[], []⟩, ⟨[], []⟩] (fun _ => none) ⟨"igw-1"⟩ =
      .ok ⟨[⟨[], []⟩], [⟨"rtb-1", [], []⟩], [], true⟩ :=
  ⟨rfl, rfl⟩

/-- Witness for C1 (amended): the characterization instantiated on a concrete
successful run with one matched table. -/
theorem C1_planner_characterization_witness :
    ([] : List DesiredTable) = [(⟨[], []⟩ : DesiredTable)].filter (fun d =>
        match find_matching_table [⟨"rtb-1", [], []⟩] d (fun _ => none) ⟨"igw-1"⟩ with
        | .ok none => true
        | _ => false) ∧
    ([] : List RouteTable) = [(⟨"rtb-1", [], []⟩ : RouteTable)].filter
        (fun t => !((matched_list [⟨"rtb-1", [], []⟩] (fun _ => none) ⟨"igw-1"⟩
            [⟨[], []⟩]).contains t)) ∧
    [(⟨"rtb-1", [], []⟩ : RouteTable)] =
        matched_list [⟨"rtb-1", [], []⟩] (fun _ => none) ⟨"igw-1"⟩ [⟨[], []⟩] ∧
    false = (!([] : List RouteTable).isEmpty || !([] : List DesiredTable).isEmpty) :=
  C1_planner_characterization [⟨"rtb-1", [], []⟩] [⟨[], []⟩] (fun _ => none) ⟨"igw-1"⟩
    ⟨[], [⟨"rtb-1", [], []⟩], [], false⟩ (by simp) rfl

/-! ### Silent non-match on unresolved subnet references (C7) -/

theorem build_subnet_mapper_mem (subnets : List Subnet) (k : String) (s : Subnet)
    (h : build_subnet_mapper subnets k = some s) : s ∈ subnets := by
  unfold build_subnet_mapper dictLookup at h
  rw [Option.map_eq_some'] at h
  obtain ⟨p, hp, hps⟩ := h
  have hmem := List.mem_of_find?_eq_some hp
  rw [List.mem_reverse, List.mem_append] at hmem
  rcases hmem with hmem | hmem <;>
  · obtain ⟨s2, hs2, he⟩ := List.mem_map.mp hmem
    cases he
    exact hps ▸ hs2

theorem find_matching_association_isOk (assocs : List RTAssociation) (s : String)
    (m : SubnetMapper) (hres : ∀ a ∈ assocs, (m a.subnet_id).isSome = true) :
    ∃ o, find_matching_association assocs s m = .ok o := by
  induction assocs with
  | nil => exact ⟨none, rfl⟩
  | cons a rest ih =>
    obtain ⟨sub, hsub⟩ := Option.isSome_iff_exists.mp (hres a (List.mem_cons_self a rest))
    by_cases hc : (s == sub.cidr_block) = true
    · exact ⟨some a, by rw [find_matching_association, hsub]; simp [hc]⟩
    · obtain ⟨o, ho⟩ := ih (fun a2 ha2 => hres a2 (List.mem_cons_of_mem a ha2))
      exact ⟨o, by rw [find_matching_association, hsub]; simp [hc, ho]⟩

theorem find_matching_association_none (assocs : List RTAssociation) (blk : String)
    (m : SubnetMapper)
    (hres : ∀ a ∈ assocs, ∃ sub, m a.subnet_id = some sub ∧ sub.cidr_block ≠ blk) :
    find_matching_association assocs blk m = .ok none := by
  induction assocs with
  | nil => rfl
  | cons a rest ih =>
    obtain ⟨sub, hsub, hne⟩ := hres a (List.mem_cons_self a rest)
    have hc : (blk == sub.cidr_block) = false := by
      simp only [beq_eq_false_iff_ne, ne_eq]
      exact fun h => hne h.symm
    rw [find_matching_association, hsub]
    simp only [hc, Bool.false_eq_true, if_false]
    exact ih (fun a2 ha2 => hres a2 (List.mem_cons_of_mem a ha2))

theorem all_subnets_match_false (assocs : List RTAssociation) (m : SubnetMapper)
    (blk : String) (slist : List String) (hblk : blk ∈ slist)
    (hres : ∀ a ∈ assocs, ∃ sub, m a.subnet_id = some sub ∧ sub.cidr_block ≠ blk) :
    all_subnets_match assocs slist m = .ok false := by
  induction slist with
  | nil => simp at hblk
  | cons c rest ih =>
    rw [all_subnets_match]
    by_cases hc : c = blk
    · subst hc
      rw [find_matching_association_none assocs c m hres]
    · obtain ⟨o, ho⟩ := find_matching_association_isOk assocs c m
        (fun a ha => by
          obtain ⟨sub, hsub, _⟩ := hres a ha
          simp [hsub])
      rw [ho]
      cases o with
      | none => rfl
      | some a =>
        have hrest : blk ∈ rest := by
          rcases List.mem_cons.mp hblk with he | hm
          · exact absurd he.symm hc
          · exact hm
        exact ih hrest

theorem table_matches_absent (t : RouteTable) (req : DesiredTable) (m : SubnetMapper)
    (g : Gateway) (blk : String) (hblk : blk ∈ req.subnets)
    (hres : ∀ a ∈ t.associations, ∃ sub, m a.subnet_id = some sub ∧ sub.cidr_block ≠ blk) :
    table_matches t req m g = .ok false := by
  simp only [table_matches]
  cases hc1 : (req.routes.length !=
      (t.routes.filter (fun route => route.gateway_id != some "local")).length) with
  | true => simp
  | false =>
    rw [if_neg (by simp)]
    cases hc2 : (!all_routes_match
        (t.routes.filter (fun route => route.gateway_id != some "local")) req.routes m g) with
    | true => simp
    | false =>
      rw [if_neg (by simp)]
      cases hc3 : (req.subnets.length != t.associations.length) with
      | true => simp
      | false =>
        rw [if_neg (by simp)]
        exact all_subnets_match_false t.associations m blk req.subnets hblk hres

theorem find_matching_table_absent (existing : List RouteTable) (req : DesiredTable)
    (m : SubnetMapper) (g : Gateway) (blk : String) (hblk : blk ∈ req.subnets)
    (hres : ∀ t ∈ existing, ∀ a ∈ t.associations,
      ∃ sub, m a.subnet_id = some sub ∧ sub.cidr_block ≠ blk) :
    find_matching_table existing req m g = .ok none := by
  induction existing with
  | nil => rfl
  | cons t rest ih =>
    rw [find_matching_table,
      table_matches_absent t req m g blk hblk (hres t (List.mem_cons_self t rest))]
    simp only [Bind.bind, Except.bind]
    rw [if_neg (by simp)]
    exact ih (fun t2 ht2 => hres t2 (List.mem_cons_of_mem t ht2))

/-- C7: a desired table referencing a subnet address block absent from the
network's subnet list silently fails to match every live table — no error is
raised, provided the live associations themselves resolve — and a successful
planning run puts that desired table into the to-create list. -/
theorem C7_unresolved_subnet_is_silent_no_match (subnets : List Subnet)
    (existing : List RouteTable) (req : DesiredTable) (g : Gateway) (blk : String)
    (hblk : blk ∈ req.subnets)
    (habsent : ∀ s ∈ subnets, s.cidr_block ≠ blk)
    (hres : ∀ t ∈ existing, ∀ a ∈ t.associations,
      (build_subnet_mapper subnets a.subnet_id).isSome = true) :
    find_matching_table existing req (build_subnet_mapper subnets) g = .ok none ∧
    ∀ (requested : List DesiredTable) (p : Plan),
      make_plan existing requested (build_subnet_mapper subnets) g = .ok p →
      req ∈ requested → req ∈ p.new_tables := by
  have hres2 : ∀ t ∈ existing, ∀ a ∈ t.associations,
      ∃ sub, build_subnet_mapper subnets a.subnet_id = some sub ∧ sub.cidr_block ≠ blk := by
    intro t ht a ha
    obtain ⟨sub, hsub⟩ := Option.isSome_iff_exists.mp (hres t ht a ha)
    exact ⟨sub, hsub, habsent sub (build_subnet_mapper_mem subnets _ sub hsub)⟩
  have hfind := find_matching_table_absent existing req (build_subnet_mapper subnets) g blk
    hblk hres2
  refine ⟨hfind, fun requested p hp hreq => ?_⟩
  rw [make_plan] at hp
  cases hr : plan_loop existing (build_subnet_mapper subnets) g requested [] [] existing with
  | error e => rw [hr] at hp; simp [Bind.bind, Except.bind] at hp
  | ok r =>
    rw [hr] at hp
    simp only [Bind.bind, Except.bind, Except.ok.injEq] at hp
    have hnew := plan_loop_ok_new existing (build_subnet_mapper subnets) g requested
      [] [] existing r hr
    subst hp
    simp only [hnew, List.nil_append]
    exact List.mem_filter.mpr ⟨hreq, by rw [hfind]⟩

/-- Witness for C7: a desired table referencing `10.0.9.0/24`, absent from a
network whose only subnet is `10.0.1.0/24`, matches nothing and is planned for
creation. -/
theorem C7_unresolved_subnet_is_silent_no_match_witness :
    find_matching_table [⟨"rtb-1", [], [⟨"a-1", "subnet-1", false⟩]⟩]
        ⟨[], ["10.0.9.0/24"]⟩
        (build_subnet_mapper [⟨"subnet-1", "10.0.1.0/24"⟩]) ⟨"igw-1"⟩ = .ok none ∧
    (⟨[], ["10.0.9.0/24"]⟩ : DesiredTable) ∈
      (Plan.mk [⟨[], ["10.0.9.0/24"]⟩] [] [⟨"rtb-1", [], [⟨"a-1", "subnet-1", false⟩]⟩]
        true).new_tables := by
  have h := C7_unresolved_subnet_is_silent_no_match [⟨"subnet-1", "10.0.1.0/24"⟩]
    [⟨"rtb-1", [], [⟨"a-1", "subnet-1", false⟩]⟩] ⟨[], ["10.0.9.0/24"]⟩ ⟨"igw-1"⟩
    "10.0.9.0/24" (by simp) (by decide) (by decide)
  exact ⟨h.1, h.2 [⟨[], ["10.0.9.0/24"]⟩]
    ⟨[⟨[], ["10.0.9.0/24"]⟩], [], [⟨"rtb-1", [], [⟨"a-1", "subnet-1", false⟩]⟩], true⟩
    rfl (List.mem_singleton.mpr rfl)⟩

/-! ### Main tables are never disassociated or deleted (C5) -/

theorem delete_assoc_ops_mem (assocs : List RTAssociation) (op : Op)
    (h : op ∈ delete_assoc_ops assocs) :
    ∃ a ∈ assocs, a.main = false ∧ op = .disassociate a.id := by
  induction assocs with
  | nil => simp [delete_assoc_ops] at h
  | cons a rest ih =>
    rw [delete_assoc_ops] at h
    by_cases hmain : (!a.main) = true
    · rw [if_pos hmain] at h
      rcases List.mem_cons.mp h with he | hm
      · exact ⟨a, List.mem_cons_self a rest, by simpa using hmain, he⟩
      · obtain ⟨a2, ha2, hm2, he2⟩ := ih hm
        exact ⟨a2, List.mem_cons_of_mem a ha2, hm2, he2⟩
    · rw [if_neg hmain] at h
      obtain ⟨a2, ha2, hm2, he2⟩ := ih h
      exact ⟨a2, List.mem_cons_of_mem a ha2, hm2, he2⟩

theorem delete_tables_mem (tables : List RouteTable) (op : Op)
    (h : op ∈ delete_tables tables) :
    (∃ u ∈ tables, ∃ a ∈ u.associations, a.main = false ∧ op = .disassociate a.id) ∨
    (∃ u ∈ tables, u.associations.any (fun a => a.main) = false ∧ op = .deleteTable u.id) := by
  induction tables with
  | nil => simp [delete_tables] at h
  | cons u rest ih =>
    rw [delete_tables] at h
    rw [List.mem_append, List.mem_append] at h
    rcases h with (h | h) | h
    · obtain ⟨a, ha, hm, he⟩ := delete_assoc_ops_mem u.associations op h
      exact Or.inl ⟨u, List.mem_cons_self u rest, a, ha, hm, he⟩
    · by_cases hm : u.associations.any (fun a => a.main) = true
      · rw [if_pos hm] at h
        simp at h
      · rw [if_neg hm] at h
        have he := List.mem_singleton.mp h
        exact Or.inr ⟨u, List.mem_cons_self u rest, by simpa using hm, he⟩
    · rcases ih h with ⟨u2, hu2, rest2⟩ | ⟨u2, hu2, rest2⟩
      · exact Or.inl ⟨u2, List.mem_cons_of_mem u hu2, rest2⟩
      · exact Or.inr ⟨u2, List.mem_cons_of_mem u hu2, rest2⟩

theorem create_route_ops_mem (tid gwid : String) (routes : List DesiredRoute) (op : Op)
    (h : op ∈ create_route_ops tid gwid routes) :
    ∃ dest gid iid, op = .createRoute tid dest gid iid := by
  induction routes with
  | nil => simp [create_route_ops] at h
  | cons r rest ih =>
    rw [create_route_ops] at h
    rcases List.mem_cons.mp h with he | hm
    · by_cases hgw : (r.gw == "igw") = true
      · rw [if_pos hgw] at he
        exact ⟨r.dest, some gwid, none, he⟩
      · rw [if_neg hgw] at he
        exact ⟨r.dest, none, some r.gw, he⟩
    · exact ih hm

theorem create_assoc_ops_mem (tid : String) (m : SubnetMapper) (subs : List String) (op : Op)
    (h : op ∈ (create_assoc_ops tid m subs).1) :
    ∃ sid, op = .associate tid sid := by
  induction subs with
  | nil => simp [create_assoc_ops] at h
  | cons c rest ih =>
    rw [create_assoc_ops] at h
    cases hm : m c with
    | none => rw [hm] at h; simp at h
    | some s =>
      rw [hm] at h
      rcases List.mem_cons.mp h with he | hmem
      · exact ⟨s.id, he⟩
      · exact ih hmem

theorem create_tables_ops_mem (vpc gwid : String) (m : SubnetMapper) :
    ∀ (tables : List DesiredTable) (fresh : Nat) (op : Op),
      op ∈ (create_tables vpc gwid tables m fresh).1 →
      (∀ aid, op ≠ .disassociate aid) ∧ (∀ tid, op ≠ .deleteTable tid) := by
  intro tables
  induction tables with
  | nil => intro fresh op h; simp [create_tables] at h
  | cons tbl rest ih =>
    intro fresh op h
    rw [create_tables] at h
    cases hca : (create_assoc_ops (fresh_table_id fresh) m tbl.subnets).2 with
    | error e =>
      rw [hca] at h
      simp only [List.mem_cons, List.mem_append] at h
      rcases h with he | h | h
      · subst he; exact ⟨fun aid hc => Op.noConfusion hc, fun tid hc => Op.noConfusion hc⟩
      · obtain ⟨dest, gid, iid, he⟩ := create_route_ops_mem _ gwid tbl.routes op h
        subst he; exact ⟨fun aid hc => Op.noConfusion hc, fun tid hc => Op.noConfusion hc⟩
      · obtain ⟨sid, he⟩ := create_assoc_ops_mem _ m tbl.subnets op h
        subst he; exact ⟨fun aid hc => Op.noConfusion hc, fun tid hc => Op.noConfusion hc⟩
    | ok u =>
      rw [hca] at h
      simp only [List.mem_cons, List.mem_append] at h
      rcases h with he | (h | h) | h
      · subst he; exact ⟨fun aid hc => Op.noConfusion hc, fun tid hc => Op.noConfusion hc⟩
      · obtain ⟨dest, gid, iid, he⟩ := create_route_ops_mem _ gwid tbl.routes op h
        subst he; exact ⟨fun aid hc => Op.noConfusion hc, fun tid hc => Op.noConfusion hc⟩
      · obtain ⟨sid, he⟩ := create_assoc_ops_mem _ m tbl.subnets op h
        subst he; exact ⟨fun aid hc => Op.noConfusion hc, fun tid hc => Op.noConfusion hc⟩
      · exact ih (fresh + 1) op h

theorem plan_loop_old_subset (existing : List RouteTable) (m : SubnetMapper) (g : Gateway)
    (rest : List DesiredTable) :
    ∀ (new : List DesiredTable) (matched old : List RouteTable) (r : PlanResult),
      plan_loop existing m g rest new matched old = .ok r →
      r.old_tables ⊆ old := by
  induction rest with
  | nil =>
    intro new matched old r h
    rw [plan_loop] at h
    simp only [Except.ok.injEq] at h
    subst h
    exact fun x hx => hx
  | cons d rest ih =>
    intro new matched old r h
    rw [plan_loop] at h
    split at h
    · exact absurd h (by simp)
    · rename_i t0 hm
      split at h
      · exact absurd h (by simp)
      · rename_i old2 hrem
        obtain ⟨_, hold2⟩ := list_remove_ok old t0 old2 hrem
        exact fun x hx => List.erase_subset t0 old (hold2 ▸ ih new _ old2 r h hx)
    · rename_i hm
      exact ih (new ++ [d]) matched old r h

theorem make_plan_old_subset (existing : List RouteTable) (requested : List DesiredTable)
    (m : SubnetMapper) (g : Gateway) (p : Plan)
    (h : make_plan existing requested m g = .ok p) : p.old_tables ⊆ existing := by
  rw [make_plan] at h
  cases hr : plan_loop existing m g requested [] [] existing with
  | error e => rw [hr] at h; simp [Bind.bind, Except.bind] at h
  | ok r =>
    rw [hr] at h
    simp only [Bind.bind, Except.bind, Except.ok.injEq] at h
    subst h
    exact plan_loop_old_subset existing m g requested [] [] existing r hr

/-- C5: a live table carrying a main association is excluded from the matching
universe and from the to-delete pool, the run's operation trace never
disassociates one of its associations nor deletes it (given
provider-guaranteed uniqueness of table and association identifiers), and the
deletion path by itself never emits a delete for a table whose associations
include a main marker. -/
theorem C5_main_table_never_touched (state vpc : String) (g : Gateway)
    (subnets : List Subnet) (requested : List DesiredTable)
    (all_tables : List RouteTable) (fresh : Nat)
    (hids : (all_tables.map (fun t => t.id)).Nodup)
    (haids : ∀ t ∈ all_tables, ∀ u ∈ all_tables, t ≠ u →
      ∀ a ∈ t.associations, ∀ b ∈ u.associations, a.id ≠ b.id)
    (t : RouteTable) (ht : t ∈ all_tables)
    (hmain : t.associations.any (fun a => a.main) = true)
    (ops : List Op) (res : Except String RunResult)
    (hrun : run_module state vpc g subnets requested all_tables fresh = (ops, res)) :
    t ∉ non_main_tables all_tables ∧
    (∀ p, make_plan (non_main_tables all_tables) requested (build_subnet_mapper subnets) g =
        .ok p → t ∉ p.old_tables) ∧
    Op.deleteTable t.id ∉ ops ∧
    (∀ a ∈ t.associations, Op.disassociate a.id ∉ ops) ∧
    (∀ tid, Op.deleteTable tid ∉ delete_tables [t]) := by
  have hnm : t ∉ non_main_tables all_tables := by
    intro hc
    have h2 := (List.mem_filter.mp hc).2
    have h3 : (t.associations.filter (fun a => a.main)).length = 0 := by simpa using h2
    rw [List.length_eq_zero] at h3
    obtain ⟨a, ha, hma⟩ := List.any_eq_true.mp hmain
    have h4 : a ∈ t.associations.filter (fun a => a.main) := List.mem_filter.mpr ⟨ha, hma⟩
    rw [h3] at h4
    simp at h4
  have hold : ∀ p, make_plan (non_main_tables all_tables) requested
      (build_subnet_mapper subnets) g = .ok p → t ∉ p.old_tables := fun p hp hc =>
    hnm (make_plan_old_subset _ _ _ _ p hp hc)
  have hsub : non_main_tables all_tables ⊆ all_tables :=
    fun x hx => (List.mem_filter.mp hx).1
  have hE : ∀ tid, Op.deleteTable tid ∉ delete_tables [t] := by
    intro tid hc
    rcases delete_tables_mem [t] _ hc with ⟨u, _, a, _, _, he⟩ | ⟨u, hu, hnomain, he⟩
    · simp at he
    · have hut := List.mem_singleton.mp hu
      subst hut
      rw [hmain] at hnomain
      cases hnomain
  have main_ops : ∀ p, make_plan (non_main_tables all_tables) requested
      (build_subnet_mapper subnets) g = .ok p →
      ∀ cre_ops, (∀ op ∈ cre_ops, (∀ aid, op ≠ .disassociate aid) ∧
          (∀ tid, op ≠ .deleteTable tid)) →
      Op.deleteTable t.id ∉ delete_tables p.old_tables ++ cre_ops ∧
      (∀ a ∈ t.associations,
        Op.disassociate a.id ∉ delete_tables p.old_tables ++ cre_ops) := by
    intro p hmp cre_ops hcre
    have holdsub : p.old_tables ⊆ all_tables :=
      fun x hx => hsub (make_plan_old_subset _ _ _ _ p hmp hx)
    have hne : ∀ u ∈ p.old_tables, t ≠ u := by
      intro u hu he
      exact hnm (he ▸ make_plan_old_subset _ _ _ _ p hmp hu)
    constructor
    · intro hc
      rcases List.mem_append.mp hc with hc | hc
      · rcases delete_tables_mem _ _ hc with ⟨u, _, a, _, _, he⟩ | ⟨u, hu, hnomain, he⟩
        · simp at he
        · simp only [Op.deleteTable.injEq] at he
          have hut : t = u := List.inj_on_of_nodup_map hids ht (holdsub hu) he
          rw [← hut, hmain] at hnomain
          cases hnomain
      · exact (hcre _ hc).2 t.id rfl
    · intro a ha hc
      rcases List.mem_append.mp hc with hc | hc
      · rcases delete_tables_mem _ _ hc with ⟨u, hu, b, hb, _, he⟩ | ⟨u, _, _, he⟩
        · simp only [Op.disassociate.injEq] at he
          exact haids t ht u (holdsub hu) (hne u hu) a ha b hb he
        · simp at he
      · exact (hcre _ hc).1 a.id rfl
  refine ⟨hnm, hold, ?_⟩
  rw [run_module] at hrun
  split at hrun
  · simp only [Prod.mk.injEq] at hrun
    rw [← hrun.1]
    exact ⟨by simp, fun a _ => by simp, hE⟩
  · rename_i p hmp
    split at hrun
    · rename_i cre_ops e hcre
      simp only [Prod.mk.injEq] at hrun
      rw [← hrun.1]
      have hshape : ∀ op ∈ cre_ops, (∀ aid, op ≠ .disassociate aid) ∧
          (∀ tid, op ≠ .deleteTable tid) := by
        intro op hop
        exact create_tables_ops_mem vpc g.id (build_subnet_mapper subnets)
          p.new_tables fresh op (by rw [hcre]; exact hop)
      obtain ⟨hc1, hc2⟩ := main_ops p hmp cre_ops hshape
      exact ⟨hc1, hc2, hE⟩
    · rename_i cre_ops u hcre
      simp only [Prod.mk.injEq] at hrun
      rw [← hrun.1]
      have hshape : ∀ op ∈ cre_ops, (∀ aid, op ≠ .disassociate aid) ∧
          (∀ tid, op ≠ .deleteTable tid) := by
        intro op hop
        exact create_tables_ops_mem vpc g.id (build_subnet_mapper subnets)
          p.new_tables fresh op (by rw [hcre]; exact hop)
      obtain ⟨hc1, hc2⟩ := main_ops p hmp cre_ops hshape
      exact ⟨hc1, hc2, hE⟩

/-- Witness for C5: a concrete run with one main table and one desired table,
whose trace deletes only the non-main live table. -/
theorem C5_main_table_never_touched_witness :
    (⟨"rtb-main", [], [⟨"a-main", "subnet-1", true⟩]⟩ : RouteTable) ∉
        non_main_tables [⟨"rtb-main", [], [⟨"a-main", "subnet-1", true⟩]⟩,
          ⟨"rtb-2", [], []⟩] ∧
    (∀ p, make_plan (non_main_tables [⟨"rtb-main", [], [⟨"a-main", "subnet-1", true⟩]⟩,
          ⟨"rtb-2", [], []⟩]) [] (build_subnet_mapper []) ⟨"igw-1"⟩ = .ok p →
        (⟨"rtb-main", [], [⟨"a-main", "subnet-1", true⟩]⟩ : RouteTable) ∉ p.old_tables) ∧
    Op.deleteTable "rtb-main" ∉ [Op.deleteTable "rtb-2"] ∧
    (∀ a ∈ ([⟨"a-main", "subnet-1", true⟩] : List RTAssociation),
        Op.disassociate a.id ∉ [Op.deleteTable "rtb-2"]) ∧
    (∀ tid, Op.deleteTable tid ∉
        delete_tables [⟨"rtb-main", [], [⟨"a-main", "subnet-1", true⟩]⟩]) := by
  have h := C5_main_table_never_touched "present" "vpc-1" ⟨"igw-1"⟩ [] []
    [⟨"rtb-main", [], [⟨"a-main", "subnet-1", true⟩]⟩, ⟨"rtb-2", [], []⟩] 0
    (by decide)
    (by decide)
    ⟨"rtb-main", [], [⟨"a-main", "subnet-1", true⟩]⟩ (by decide) (by decide)
    [Op.deleteTable "rtb-2"] (.ok ⟨true, format_response
      [⟨"rtb-main", [], [⟨"a-main", "subnet-1", true⟩]⟩],
      [⟨"rtb-main", [], [⟨"a-main", "subnet-1", true⟩]⟩]⟩) rfl
  exact h

/-! ### Shape of the Executor creation path (C6) -/

theorem create_route_ops_eq_map (tid gwid : String) (routes : List DesiredRoute) :
    create_route_ops tid gwid routes = routes.map (fun r =>
      if r.gw == "igw" then Op.createRoute tid r.dest (some gwid) none
      else Op.createRoute tid r.dest none (some r.gw)) := by
  induction routes with
  | nil => rfl
  | cons r rest ih => rw [create_route_ops, List.map_cons, ih]

theorem create_assoc_ops_resolved (tid : String) (m : SubnetMapper) (subs : List String)
    (h : ∀ c ∈ subs, (m c).isSome = true) :
    create_assoc_ops tid m subs =
      (subs.filterMap (fun c => (m c).map (fun s => Op.associate tid s.id)), .ok ()) := by
  induction subs with
  | nil => rfl
  | cons c rest ih =>
    obtain ⟨s, hs⟩ := Option.isSome_iff_exists.mp (h c (List.mem_cons_self c rest))
    rw [create_assoc_ops, hs, ih (fun c2 hc2 => h c2 (List.mem_cons_of_mem c hc2)),
      List.filterMap_cons, hs]
    simp

theorem create_route_ops_gateway_route (tid gwid : String) (routes : List DesiredRoute)
    (tid2 dest gid : String) (iid : Option String)
    (h : Op.createRoute tid2 dest (some gid) iid ∈ create_route_ops tid gwid routes) :
    gid = gwid ∧ iid = none := by
  induction routes with
  | nil => simp [create_route_ops] at h
  | cons r rest ih =>
    rw [create_route_ops] at h
    rcases List.mem_cons.mp h with he | hm
    · by_cases hgw : (r.gw == "igw") = true
      · rw [if_pos hgw] at he
        simp only [Op.createRoute.injEq] at he
        exact ⟨by simpa using he.2.2.1, he.2.2.2⟩
      · rw [if_neg hgw] at he
        simp at he
    · exact ih hm

/-- C6: given that every referenced subnet resolves, the Executor's creation
trace is, for each desired table in order: one create-table call, then one
create-route call per declared route — the symbolic `"igw"` resolved to the
gateway id with no instance target, any other specifier passed as a literal
instance target — then one associate call per declared subnet block resolved
to its subnet id; moreover every created route whose gateway argument is set
carries the gateway id and no instance id. -/
theorem C6_executor_creation_shape (vpc gwid : String) (m : SubnetMapper) :
    ∀ (tables : List DesiredTable) (fresh : Nat),
      (∀ d ∈ tables, ∀ c ∈ d.subnets, (m c).isSome = true) →
      create_tables vpc gwid tables m fresh =
        ((List.enumFrom fresh tables).flatMap (fun p =>
          Op.createTable (fresh_table_id p.1) vpc ::
            (p.2.routes.map (fun r =>
              if r.gw == "igw" then Op.createRoute (fresh_table_id p.1) r.dest (some gwid) none
              else Op.createRoute (fresh_table_id p.1) r.dest none (some r.gw)) ++
             p.2.subnets.filterMap (fun c =>
              (m c).map (fun s => Op.associate (fresh_table_id p.1) s.id)))),
         .ok ()) ∧
      (∀ tid dest gid iid,
        Op.createRoute tid dest (some gid) iid ∈ (create_tables vpc gwid tables m fresh).1 →
        gid = gwid ∧ iid = none) := by
  intro tables
  induction tables with
  | nil =>
    intro fresh _
    exact ⟨rfl, fun tid dest gid iid h => by simp [create_tables] at h⟩
  | cons tbl rest ih =>
    intro fresh hres
    have hres1 : ∀ c ∈ tbl.subnets, (m c).isSome = true :=
      hres tbl (List.mem_cons_self tbl rest)
    have hres2 : ∀ d ∈ rest, ∀ c ∈ d.subnets, (m c).isSome = true :=
      fun d hd => hres d (List.mem_cons_of_mem tbl hd)
    obtain ⟨ih1, ih2⟩ := ih (fresh + 1) hres2
    have hca := create_assoc_ops_resolved (fresh_table_id fresh) m tbl.subnets hres1
    constructor
    · rw [create_tables, hca]
      simp only [List.enumFrom, List.flatMap_cons, ih1, List.cons_append,
        create_route_ops_eq_map, List.append_assoc]
    · intro tid dest gid iid h
      rw [create_tables, hca] at h
      simp only [List.mem_cons, List.mem_append] at h
      rcases h with he | (h | h) | h
      · exact absurd he (by simp)
      · exact create_route_ops_gateway_route (fresh_table_id fresh) gwid tbl.routes
          tid dest gid iid h
      · obtain ⟨sid, he⟩ := create_assoc_ops_mem (fresh_table_id fresh) m tbl.subnets _
          (by rw [hca]; exact h)
        exact absurd he (by simp)
      · exact ih2 tid dest gid iid h

/-- Witness for C6: one desired table with an igw route, an instance route and
one subnet. -/
theorem C6_executor_creation_shape_witness :
    create_tables "vpc-1" "igw-1"
        [⟨[⟨"0.0.0.0/0", "igw"⟩, ⟨"10.9.0.0/16", "i-abc"⟩], ["10.0.1.0/24"]⟩]
        (build_subnet_mapper [⟨"subnet-1", "10.0.1.0/24"⟩]) 0 =
      ((List.enumFrom 0 [(⟨[⟨"0.0.0.0/0", "igw"⟩, ⟨"10.9.0.0/16", "i-abc"⟩],
          ["10.0.1.0/24"]⟩ : DesiredTable)]).flatMap (fun p =>
        Op.createTable (fresh_table_id p.1) "vpc-1" ::
          (p.2.routes.map (fun r =>
            if r.gw == "igw" then Op.createRoute (fresh_table_id p.1) r.dest (some "igw-1") none
            else Op.createRoute (fresh_table_id p.1) r.dest none (some r.gw)) ++
           p.2.subnets.filterMap (fun c =>
            (build_subnet_mapper [⟨"subnet-1", "10.0.1.0/24"⟩] c).map
              (fun s => Op.associate (fresh_table_id p.1) s.id)))),
       .ok ()) :=
  (C6_executor_creation_shape "vpc-1" "igw-1"
    (build_subnet_mapper [⟨"subnet-1", "10.0.1.0/24"⟩])
    [⟨[⟨"0.0.0.0/0", "igw"⟩, ⟨"10.9.0.0/16", "i-abc"⟩], ["10.0.1.0/24"]⟩] 0
    (by decide)).1

/-! ### Infrastructure for idempotence (C4): generic list helpers -/

theorem list_map_id_of {α : Type} (l : List α) (f : α → α) (h : ∀ x ∈ l, f x = x) :
    l.map f = l := by
  induction l with
  | nil => rfl
  | cons x xs ih =>
    rw [List.map_cons, h x (List.mem_cons_self x xs),
      ih (fun y hy => h y (List.mem_cons_of_mem x hy))]

theorem find?_eq_some_of_unique {α : Type} (l : List α) (p : α → Bool) (a : α)
    (hmem : a ∈ l) (hpa : p a = true) (huniq : ∀ x ∈ l, p x = true → x = a) :
    l.find? p = some a := by
  induction l with
  | nil => simp at hmem
  | cons y ys ih =>
    by_cases hy : p y = true
    · rw [List.find?_cons_of_pos _ hy, huniq y (List.mem_cons_self y ys) hy]
    · rw [List.find?_cons_of_neg _ hy]
      have hne : a ≠ y := fun he => hy (he ▸ hpa)
      have hmem2 : a ∈ ys := by
        rcases List.mem_cons.mp hmem with he | hm
        · exact absurd he hne
        · exact hm
      exact ih hmem2 (fun x hx hpx => huniq x (List.mem_cons_of_mem y hx) hpx)

/-! ### The subnet mapper round trip under provider-guaranteed uniqueness -/

/-- Provider-guaranteed well-formedness of the subnet listing (spec §4.1):
distinct subnet ids, distinct address blocks, and no id collides with an
address block. -/
def WfSubnets (subnets : List Subnet) : Prop :=
  (subnets.map (fun s => s.id)).Nodup ∧
  (subnets.map (fun s => s.cidr_block)).Nodup ∧
  (∀ s ∈ subnets, ∀ s2 ∈ subnets, s.id ≠ s2.cidr_block)

theorem build_subnet_mapper_cidr (subnets : List Subnet) (hwf : WfSubnets subnets)
    (s : Subnet) (hs : s ∈ subnets) :
    build_subnet_mapper subnets s.cidr_block = some s := by
  obtain ⟨hid, hcidr, hdisj⟩ := hwf
  unfold build_subnet_mapper dictLookup
  rw [find?_eq_some_of_unique _ _ ((s.cidr_block, s) : String × Subnet) ?hmem ?hpa ?huniq]
  · rfl
  case hmem =>
    rw [List.mem_reverse, List.mem_append]
    exact Or.inr (List.mem_map.mpr ⟨s, hs, rfl⟩)
  case hpa => simp
  case huniq =>
    intro x hx hpx
    rw [List.mem_reverse, List.mem_append] at hx
    rcases hx with hx | hx
    · obtain ⟨s2, hs2, he⟩ := List.mem_map.mp hx
      subst he
      exact absurd (by simpa using hpx) (hdisj s2 hs2 s hs)
    · obtain ⟨s2, hs2, he⟩ := List.mem_map.mp hx
      subst he
      have he2 : s2.cidr_block = s.cidr_block := by simpa using hpx
      rw [List.inj_on_of_nodup_map hcidr hs2 hs he2]

theorem build_subnet_mapper_id (subnets : List Subnet) (hwf : WfSubnets subnets)
    (s : Subnet) (hs : s ∈ subnets) :
    build_subnet_mapper subnets s.id = some s := by
  obtain ⟨hid, hcidr, hdisj⟩ := hwf
  unfold build_subnet_mapper dictLookup
  rw [find?_eq_some_of_unique _ _ ((s.id, s) : String × Subnet) ?hmem ?hpa ?huniq]
  · rfl
  case hmem =>
    rw [List.mem_reverse, List.mem_append]
    exact Or.inl (List.mem_map.mpr ⟨s, hs, rfl⟩)
  case hpa => simp
  case huniq =>
    intro x hx hpx
    rw [List.mem_reverse, List.mem_append] at hx
    rcases hx with hx | hx
    · obtain ⟨s2, hs2, he⟩ := List.mem_map.mp hx
      subst he
      have he2 : s2.id = s.id := by simpa using hpx
      rw [List.inj_on_of_nodup_map hid hs2 hs he2]
    · obtain ⟨s2, hs2, he⟩ := List.mem_map.mp hx
      subst he
      have he2 : s2.cidr_block = s.id := by simpa using hpx
      exact absurd he2.symm (hdisj s hs s2 hs2)

theorem fresh_table_id_inj (n k : Nat) (h : fresh_table_id n = fresh_table_id k) : n = k := by
  unfold fresh_table_id at h
  have h2 : ("rtb-new-" ++ String.mk (List.replicate n 'i')).data =
      ("rtb-new-" ++ String.mk (List.replicate k 'i')).data := by rw [h]
  rw [String.data_append, String.data_append] at h2
  have h3 := List.append_cancel_left h2
  have h4 := congrArg List.length h3
  simpa using h4

/-! ### Effect of the creation trace on provider state -/

/-- Modelled from the spec: the live route the provider records for one
requested route (spec §4.6). -/
def created_route (gateway_id : String) (r : DesiredRoute) : RouteInfo :=
  if r.gw == "igw" then ⟨some r.dest, some gateway_id, none⟩
  else ⟨some r.dest, none, some r.gw⟩

/-- Modelled from the spec: the live association the provider records for one
associate call (see `applyOp`). -/
def created_assoc (tid sid : String) : RTAssociation :=
  ⟨"assoc-" ++ tid ++ "-" ++ sid, sid, false⟩

/-- The live table that materializes from the creation trace of one requested
table. -/
def realize_table (tid gateway_id : String) (m : SubnetMapper) (d : DesiredTable) : RouteTable :=
  ⟨tid, local_route :: d.routes.map (created_route gateway_id),
   d.subnets.filterMap (fun c => (m c).map (fun s => created_assoc tid s.id))⟩

/-- The live tables that materialize from the creation trace of a run. -/
def realize_tables (gateway_id : String) (m : SubnetMapper) :
    List DesiredTable → Nat → List RouteTable
  | [], _ => []
  | d :: rest, fresh =>
    realize_table (fresh_table_id fresh) gateway_id m d ::
      realize_tables gateway_id m rest (fresh + 1)

theorem applyOps_cons (st : List RouteTable) (op : Op) (ops : List Op) :
    applyOps st (op :: ops) = applyOps (applyOp st op) ops := rfl

theorem applyOps_append (st : List RouteTable) (l1 l2 : List Op) :
    applyOps st (l1 ++ l2) = applyOps (applyOps st l1) l2 :=
  List.foldl_append applyOp st l1 l2

theorem applyOps_create_route_ops (st : List RouteTable) (tid gwid : String)
    (routes : List DesiredRoute) :
    ∀ (T : RouteTable), T.id = tid → (∀ u ∈ st, u.id ≠ tid) →
      applyOps (st ++ [T]) (create_route_ops tid gwid routes) =
        st ++ [{T with routes := T.routes ++ routes.map (created_route gwid)}] := by
  induction routes with
  | nil => intro T hT _; simp [create_route_ops, applyOps]
  | cons r rs ih =>
    intro T hT hst
    have step : applyOp (st ++ [T])
        (if r.gw == "igw" then Op.createRoute tid r.dest (some gwid) none
         else Op.createRoute tid r.dest none (some r.gw)) =
        st ++ [{T with routes := T.routes ++ [created_route gwid r]}] := by
      by_cases hgw : (r.gw == "igw") = true
      · rw [if_pos hgw]
        simp only [applyOp, List.map_append]
        rw [list_map_id_of st _ (fun u hu => by simp [hst u hu])]
        simp [hT, created_route, hgw]
      · rw [if_neg hgw]
        simp only [applyOp, List.map_append]
        rw [list_map_id_of st _ (fun u hu => by simp [hst u hu])]
        simp [hT, created_route, hgw]
    rw [create_route_ops, applyOps_cons, step,
      ih {T with routes := T.routes ++ [created_route gwid r]} (by simpa using hT) hst]
    simp

theorem applyOps_create_assoc_ops (st : List RouteTable) (tid : String) (m : SubnetMapper)
    (subs : List String) :
    ∀ (T : RouteTable), T.id = tid → (∀ u ∈ st, u.id ≠ tid) →
      (∀ c ∈ subs, (m c).isSome = true) →
      applyOps (st ++ [T]) ((create_assoc_ops tid m subs).1) =
        st ++ [{T with associations := T.associations ++
          subs.filterMap (fun c => (m c).map (fun s => created_assoc tid s.id))}] := by
  induction subs with
  | nil => intro T hT _ _; simp [create_assoc_ops, applyOps]
  | cons c cs ih =>
    intro T hT hst hres
    obtain ⟨s, hs⟩ := Option.isSome_iff_exists.mp (hres c (List.mem_cons_self c cs))
    rw [create_assoc_ops, hs]
    rw [applyOps_cons]
    have step : applyOp (st ++ [T]) (Op.associate tid s.id) =
        st ++ [{T with associations := T.associations ++ [created_assoc tid s.id]}] := by
      simp only [applyOp, List.map_append]
      rw [list_map_id_of st _ (fun u hu => by simp [hst u hu])]
      simp [hT, created_assoc]
    rw [step, ih {T with associations := T.associations ++ [created_assoc tid s.id]}
      (by simpa using hT) hst (fun c2 hc2 => hres c2 (List.mem_cons_of_mem c hc2))]
    rw [List.filterMap_cons, hs]
    simp

theorem applyOps_create_tables (vpc gwid : String) (m : SubnetMapper) :
    ∀ (tables : List DesiredTable) (fresh : Nat) (st : List RouteTable),
      (∀ d ∈ tables, ∀ c ∈ d.subnets, (m c).isSome = true) →
      (∀ u ∈ st, ∀ n, fresh ≤ n → u.id ≠ fresh_table_id n) →
      (create_tables vpc gwid tables m fresh).2 = .ok () ∧
      applyOps st ((create_tables vpc gwid tables m fresh).1) =
        st ++ realize_tables gwid m tables fresh := by
  intro tables
  induction tables with
  | nil =>
    intro fresh st _ _
    exact ⟨rfl, by simp [create_tables, applyOps, realize_tables]⟩
  | cons d rest ih =>
    intro fresh st hres hfresh
    have hres1 : ∀ c ∈ d.subnets, (m c).isSome = true := hres d (List.mem_cons_self d rest)
    have hres2 : ∀ d2 ∈ rest, ∀ c ∈ d2.subnets, (m c).isSome = true :=
      fun d2 hd2 => hres d2 (List.mem_cons_of_mem d hd2)
    have hca := create_assoc_ops_resolved (fresh_table_id fresh) m d.subnets hres1
    have hfresh2 : ∀ u ∈ st ++ [realize_table (fresh_table_id fresh) gwid m d],
        ∀ n, fresh + 1 ≤ n → u.id ≠ fresh_table_id n := by
      intro u hu n hn
      rcases List.mem_append.mp hu with hu | hu
      · exact hfresh u hu n (Nat.le_of_succ_le hn)
      · rw [List.mem_singleton.mp hu]
        intro he
        have := fresh_table_id_inj _ _ he
        omega
    obtain ⟨ihok, iheq⟩ := ih (fresh + 1)
      (st ++ [realize_table (fresh_table_id fresh) gwid m d]) hres2 hfresh2
    have hstid : ∀ u ∈ st, u.id ≠ fresh_table_id fresh :=
      fun u hu => hfresh u hu fresh (Nat.le_refl fresh)
    constructor
    · simp only [create_tables, hca]
      exact ihok
    · simp only [create_tables, hca]
      rw [applyOps_cons]
      rw [show applyOp st (Op.createTable (fresh_table_id fresh) vpc) =
        st ++ [⟨fresh_table_id fresh, [local_route], []⟩] from rfl]
      rw [applyOps_append, applyOps_append]
      rw [applyOps_create_route_ops st (fresh_table_id fresh) gwid d.routes
        ⟨fresh_table_id fresh, [local_route], []⟩ rfl hstid]
      have hT1 : ({ (⟨fresh_table_id fresh, [local_route], []⟩ : RouteTable) with
          routes := [local_route] ++ d.routes.map (created_route gwid) }) =
          (⟨fresh_table_id fresh, local_route :: d.routes.map (created_route gwid), []⟩ :
            RouteTable) := rfl
      rw [hT1]
      have haops : List.filterMap
          (fun c => Option.map (fun s => Op.associate (fresh_table_id fresh) s.id) (m c))
          d.subnets = (create_assoc_ops (fresh_table_id fresh) m d.subnets).1 := by
        rw [hca]
      rw [haops]
      rw [applyOps_create_assoc_ops st (fresh_table_id fresh) m d.subnets
        ⟨fresh_table_id fresh, local_route :: d.routes.map (created_route gwid), []⟩
        rfl hstid hres1]
      have hT2 : ({ (⟨fresh_table_id fresh,
            local_route :: d.routes.map (created_route gwid), []⟩ : RouteTable) with
          associations := [] ++ d.subnets.filterMap
            (fun c => (m c).map (fun s => created_assoc (fresh_table_id fresh) s.id)) }) =
          realize_table (fresh_table_id fresh) gwid m d := by
        simp [realize_table]
      rw [hT2, iheq, realize_tables]
      simp

/-! ### Effect of the deletion trace on provider state -/

/-- Strip from a table every association whose id is in `ids`. -/
def strip_ids (ids : List String) (v : RouteTable) : RouteTable :=
  { v with associations := v.associations.filter (fun b => !(ids.contains b.id)) }

/-- Ids of the non-main associations of a table: the targets of the
disassociate loop of `delete_tables`. -/
def non_main_assoc_ids (assocs : List RTAssociation) : List String :=
  (assocs.filter (fun a => !a.main)).map (fun a => a.id)

theorem string_beq_decide (a b : String) : (a == b) = decide (a = b) := by
  cases hd : decide (a = b)
  · simp only [decide_eq_false_iff_not] at hd
    simp [hd]
  · simp only [decide_eq_true_eq] at hd
    simp [hd]

theorem strip_ids_nil (v : RouteTable) : strip_ids [] v = v := by
  simp [strip_ids]

theorem strip_ids_id (ids : List String) (v : RouteTable) : (strip_ids ids v).id = v.id := rfl

theorem strip_ids_strip_ids (ids1 ids2 : List String) (v : RouteTable) :
    strip_ids ids2 (strip_ids ids1 v) = strip_ids (ids1 ++ ids2) v := by
  simp only [strip_ids, List.filter_filter]
  congr 1
  apply List.filter_congr
  intro b _
  simp [List.mem_append, not_or, Bool.and_comm]

theorem applyOps_delete_assoc_ops (assocs : List RTAssociation) :
    ∀ st : List RouteTable,
      applyOps st (delete_assoc_ops assocs) =
        st.map (strip_ids (non_main_assoc_ids assocs)) := by
  induction assocs with
  | nil =>
    intro st
    rw [show delete_assoc_ops [] = [] from rfl]
    rw [show non_main_assoc_ids [] = [] from rfl]
    rw [list_map_id_of st _ (fun v _ => strip_ids_nil v)]
    rfl
  | cons a rest ih =>
    intro st
    rw [delete_assoc_ops]
    by_cases hm : (!a.main) = true
    · rw [if_pos hm, applyOps_cons]
      have h1 : applyOp st (Op.disassociate a.id) = st.map (strip_ids [a.id]) := by
        simp only [applyOp, strip_ids]
        apply List.map_congr_left
        intro v _
        congr 1
        apply List.filter_congr
        intro b _
        simp [bne, string_beq_decide]
      rw [h1, ih, List.map_map]
      have h2 : non_main_assoc_ids (a :: rest) = a.id :: non_main_assoc_ids rest := by
        simp [non_main_assoc_ids, List.filter_cons, hm]
      rw [h2]
      apply List.map_congr_left
      intro v _
      rw [Function.comp_apply, strip_ids_strip_ids]
      rfl
    · rw [if_neg hm, ih]
      have h2 : non_main_assoc_ids (a :: rest) = non_main_assoc_ids rest := by
        simp only [non_main_assoc_ids, List.filter_cons]
        rw [if_neg hm]
      rw [h2]

theorem filter_map_strip (st : List RouteTable) (ids : List String) (q : RouteTable → Bool)
    (hq : ∀ v, q (strip_ids ids v) = q v) :
    (st.map (strip_ids ids)).filter q = (st.filter q).map (strip_ids ids) := by
  induction st with
  | nil => rfl
  | cons v vs ih =>
    rw [List.map_cons, List.filter_cons, List.filter_cons, hq v]
    cases hp : q v with
    | true => simp [ih]
    | false => simp [ih]

theorem applyOps_delete_tables (old : List RouteTable) :
    ∀ st : List RouteTable,
      (∀ u ∈ old, u.associations.any (fun a => a.main) = false) →
      (∀ u ∈ old, ∀ v ∈ st, (old.map (fun t => t.id)).contains v.id = false →
        ∀ b ∈ v.associations, ∀ a ∈ u.associations, b.id ≠ a.id) →
      applyOps st (delete_tables old) =
        st.filter (fun v => !((old.map (fun t => t.id)).contains v.id)) := by
  induction old with
  | nil =>
    intro st _ _
    rw [show delete_tables [] = [] from rfl]
    have h1 : ∀ v ∈ st, (!((List.map (fun t => t.id) ([] : List RouteTable)).contains v.id)) =
        true := by intro v _; simp
    rw [List.filter_eq_self.mpr h1]
    rfl
  | cons u rest ih =>
    intro st hnomain hdisj
    have hnm_u : u.associations.any (fun a => a.main) = false :=
      hnomain u (List.mem_cons_self u rest)
    rw [delete_tables, if_neg (by simp [hnm_u])]
    rw [applyOps_append, applyOps_append, applyOps_delete_assoc_ops]
    rw [show applyOps (st.map (strip_ids (non_main_assoc_ids u.associations)))
        [Op.deleteTable u.id] =
      (st.map (strip_ids (non_main_assoc_ids u.associations))).filter
        (fun v => v.id != u.id) from rfl]
    rw [filter_map_strip st (non_main_assoc_ids u.associations) (fun v => v.id != u.id)
      (fun v => rfl)]
    have hdisj2 : ∀ u2 ∈ rest,
        ∀ v ∈ (st.filter (fun v => v.id != u.id)).map
          (strip_ids (non_main_assoc_ids u.associations)),
        (rest.map (fun t => t.id)).contains v.id = false →
        ∀ b ∈ v.associations, ∀ a ∈ u2.associations, b.id ≠ a.id := by
      intro u2 hu2 v hv hvid b hb a ha
      obtain ⟨v0, hv0, hv0e⟩ := List.mem_map.mp hv
      have hv0mem : v0 ∈ st := (List.mem_filter.mp hv0).1
      have hv0ne : (v0.id != u.id) = true := (List.mem_filter.mp hv0).2
      have hvid0 : ((u :: rest).map (fun t => t.id)).contains v0.id = false := by
        rw [List.map_cons, List.contains_cons]
        have hne : (v0.id == u.id) = false := by
          simpa [bne] using hv0ne
        rw [hne]
        rw [← hv0e] at hvid
        rw [strip_ids_id] at hvid
        simpa using hvid
      have hbv0 : b ∈ v0.associations := by
        rw [← hv0e] at hb
        exact List.mem_of_mem_filter hb
      exact hdisj u2 (List.mem_cons_of_mem u hu2) v0 hv0mem hvid0 b hbv0 a ha
    rw [ih ((st.filter (fun v => v.id != u.id)).map
        (strip_ids (non_main_assoc_ids u.associations)))
      (fun u2 hu2 => hnomain u2 (List.mem_cons_of_mem u hu2)) hdisj2]
    have hcomm2 : ((st.filter (fun v => v.id != u.id)).map
          (strip_ids (non_main_assoc_ids u.associations))).filter
            (fun v => !((rest.map (fun t => t.id)).contains v.id)) =
        ((st.filter (fun v => v.id != u.id)).filter
            (fun v => !((rest.map (fun t => t.id)).contains v.id))).map
          (strip_ids (non_main_assoc_ids u.associations)) :=
      filter_map_strip _ _ _ (fun v => rfl)
    rw [hcomm2]
    rw [List.filter_filter]
    have hpred : ∀ v ∈ st,
        ((!((rest.map (fun t => t.id)).contains v.id)) && (v.id != u.id)) =
          (!(((u :: rest).map (fun t => t.id)).contains v.id)) := by
      intro v _
      simp [List.contains_cons, bne, Bool.and_comm, string_beq_decide]
    rw [List.filter_congr hpred]
    apply list_map_id_of
    intro v hv
    have hvmem : v ∈ st := List.mem_of_mem_filter hv
    have hvcond := List.of_mem_filter hv
    have hvfalse : (((u :: rest).map (fun t => t.id)).contains v.id) = false := by
      simpa using hvcond
    have hall : ∀ b ∈ v.associations,
        (!((non_main_assoc_ids u.associations).contains b.id)) = true := by
      intro b hb
      by_contra hc
      have hc2 : ((non_main_assoc_ids u.associations).contains b.id) = true := by
        simpa using hc
      have hc3 : b.id ∈ non_main_assoc_ids u.associations := by
        simpa using hc2
      obtain ⟨a, ha, hae⟩ := List.mem_map.mp hc3
      exact hdisj u (List.mem_cons_self u rest) v hvmem hvfalse b hb a
        (List.mem_of_mem_filter ha) hae.symm
    show strip_ids (non_main_assoc_ids u.associations) v = v
    rw [strip_ids, List.filter_eq_self.mpr hall]

/-! ### A realized table satisfies its origin spec -/

theorem filterMap_length_all_some {α β : Type} (l : List α) (f : α → Option β)
    (h : ∀ a ∈ l, (f a).isSome = true) : (l.filterMap f).length = l.length := by
  induction l with
  | nil => rfl
  | cons a rest ih =>
    obtain ⟨b, hb⟩ := Option.isSome_iff_exists.mp (h a (List.mem_cons_self a rest))
    rw [List.filterMap_cons, hb]
    simp only [List.length_cons]
    rw [ih (fun a2 ha2 => h a2 (List.mem_cons_of_mem a ha2))]

theorem route_satisfies_created (g : Gateway) (r : DesiredRoute) :
    route_satisfies (created_route g.id r) r g = true := by
  unfold created_route route_satisfies
  by_cases hgw : (r.gw == "igw") = true
  · rw [if_pos hgw]
    simp [truthy, bne, hgw]
  · rw [if_neg hgw]
    simp [truthy, bne]

theorem find_matching_association_finds (assocs : List RTAssociation) (c : String)
    (m : SubnetMapper) (hres : ∀ b ∈ assocs, (m b.subnet_id).isSome = true)
    (hsat : ∃ b ∈ assocs, ∃ s, m b.subnet_id = some s ∧ s.cidr_block = c) :
    ∃ a, find_matching_association assocs c m = .ok (some a) := by
  induction assocs with
  | nil => simp at hsat
  | cons b rest ih =>
    obtain ⟨s, hs⟩ := Option.isSome_iff_exists.mp (hres b (List.mem_cons_self b rest))
    by_cases hc : (c == s.cidr_block) = true
    · exact ⟨b, by rw [find_matching_association, hs]; simp [hc]⟩
    · obtain ⟨b2, hb2, s2, hs2, hcs2⟩ := hsat
      have hb2rest : b2 ∈ rest := by
        rcases List.mem_cons.mp hb2 with he | hmem
        · subst he
          rw [hs] at hs2
          have hss : s = s2 := by simpa using hs2
          exact absurd (by simp [hss, hcs2]) hc
        · exact hmem
      obtain ⟨a, ha⟩ := ih (fun b3 hb3 => hres b3 (List.mem_cons_of_mem b hb3))
        ⟨b2, hb2rest, s2, hs2, hcs2⟩
      exact ⟨a, by rw [find_matching_association, hs]; simp [hc, ha]⟩

theorem all_subnets_match_true (assocs : List RTAssociation) (m : SubnetMapper) :
    ∀ slist : List String,
      (∀ c ∈ slist, ∃ a, find_matching_association assocs c m = .ok (some a)) →
      all_subnets_match assocs slist m = .ok true := by
  intro slist
  induction slist with
  | nil => intro _; rfl
  | cons c rest ih =>
    intro h
    obtain ⟨a, ha⟩ := h c (List.mem_cons_self c rest)
    rw [all_subnets_match, ha]
    exact ih (fun c2 hc2 => h c2 (List.mem_cons_of_mem c hc2))

theorem realize_table_assoc_origin (tid gwid : String) (m : SubnetMapper) (d : DesiredTable)
    (b : RTAssociation) (hb : b ∈ (realize_table tid gwid m d).associations) :
    ∃ c ∈ d.subnets, ∃ s, m c = some s ∧ b = created_assoc tid s.id := by
  simp only [realize_table] at hb
  obtain ⟨c, hc, he⟩ := List.mem_filterMap.mp hb
  obtain ⟨s, hs, he2⟩ := Option.map_eq_some'.mp he
  exact ⟨c, hc, s, hs, he2.symm⟩

theorem table_matches_realize (tid : String) (m : SubnetMapper) (g : Gateway)
    (d : DesiredTable) (hgl : g.id ≠ "local")
    (hround : ∀ c ∈ d.subnets, ∃ s, m c = some s ∧ m s.id = some s ∧ s.cidr_block = c) :
    table_matches (realize_table tid g.id m d) d m g = .ok true := by
  have hfilter : (local_route :: d.routes.map (created_route g.id)).filter
      (fun route => route.gateway_id != some "local") = d.routes.map (created_route g.id) := by
    rw [List.filter_cons_of_neg (by simp [local_route])]
    apply List.filter_eq_self.mpr
    intro r hr
    obtain ⟨r0, _, he⟩ := List.mem_map.mp hr
    subst he
    unfold created_route
    by_cases hgw : (r0.gw == "igw") = true
    · rw [if_pos hgw]
      simpa using hgl
    · rw [if_neg hgw]
      simp
  have harm : all_routes_match (d.routes.map (created_route g.id)) d.routes m g = true := by
    unfold all_routes_match
    rw [List.all_eq_true]
    intro r hr
    unfold find_matching_route
    rw [List.find?_isSome]
    exact ⟨created_route g.id r, List.mem_map_of_mem _ hr, route_satisfies_created g r⟩
  have hlen : ((realize_table tid g.id m d).associations).length = d.subnets.length := by
    simp only [realize_table]
    apply filterMap_length_all_some
    intro c hc
    obtain ⟨s, hs, _, _⟩ := hround c hc
    simp [hs]
  have hasm : all_subnets_match (realize_table tid g.id m d).associations d.subnets m =
      .ok true := by
    apply all_subnets_match_true
    intro c hc
    obtain ⟨s, hs, hsid, hscidr⟩ := hround c hc
    apply find_matching_association_finds
    · intro b hb
      obtain ⟨c2, hc2, s2, hs2, he2⟩ := realize_table_assoc_origin tid g.id m d b hb
      obtain ⟨s3, hs3, hs3id, _⟩ := hround c2 hc2
      rw [hs2] at hs3
      have hss : s2 = s3 := by
        have h4 : some s3 = some s2 := hs3.symm
        have h5 : s3 = s2 := by simpa using h4
        exact h5.symm
      rw [he2]
      have hbsub : (created_assoc tid s2.id).subnet_id = s2.id := rfl
      rw [hbsub, hss, hs3id]
      rfl
    · refine ⟨created_assoc tid s.id, ?_, s, by simp [created_assoc, hsid], hscidr⟩
      simp only [realize_table]
      exact List.mem_filterMap.mpr ⟨c, hc, by rw [hs]; rfl⟩
  have hlen2 : (List.filterMap (fun c => Option.map (fun s => created_assoc tid s.id) (m c))
      d.subnets).length = d.subnets.length := hlen
  simp only [table_matches, realize_table]
  rw [hfilter]
  rw [if_neg (by simp)]
  rw [if_neg (by simp [harm])]
  rw [if_neg (by rw [hlen2]; simp)]
  exact hasm

/-! ### Error freedom and success of the second planning pass -/

theorem all_subnets_match_isOk (assocs : List RTAssociation) (m : SubnetMapper)
    (hres : ∀ b ∈ assocs, (m b.subnet_id).isSome = true) :
    ∀ slist : List String, ∃ b, all_subnets_match assocs slist m = .ok b := by
  intro slist
  induction slist with
  | nil => exact ⟨true, rfl⟩
  | cons c rest ih =>
    obtain ⟨o, ho⟩ := find_matching_association_isOk assocs c m hres
    cases o with
    | none => exact ⟨false, by rw [all_subnets_match, ho]⟩
    | some a =>
      obtain ⟨b, hb⟩ := ih
      exact ⟨b, by rw [all_subnets_match, ho]; exact hb⟩

theorem table_matches_isOk (t : RouteTable) (d : DesiredTable) (m : SubnetMapper)
    (g : Gateway) (hres : ∀ a ∈ t.associations, (m a.subnet_id).isSome = true) :
    ∃ b, table_matches t d m g = .ok b := by
  simp only [table_matches]
  cases hc1 : (d.routes.length !=
      (t.routes.filter (fun route => route.gateway_id != some "local")).length) with
  | true => exact ⟨false, by simp⟩
  | false =>
    rw [if_neg (by simp)]
    cases hc2 : (!all_routes_match
        (t.routes.filter (fun route => route.gateway_id != some "local")) d.routes m g) with
    | true => exact ⟨false, by simp⟩
    | false =>
      rw [if_neg (by simp)]
      cases hc3 : (d.subnets.length != t.associations.length) with
      | true => exact ⟨false, by simp⟩
      | false =>
        rw [if_neg (by simp)]
        exact all_subnets_match_isOk t.associations m hres d.subnets

theorem find_matching_table_finds (existing : List RouteTable) (d : DesiredTable)
    (m : SubnetMapper) (g : Gateway)
    (hok : ∀ t ∈ existing, ∃ b, table_matches t d m g = .ok b)
    (hsat : ∃ t ∈ existing, table_matches t d m g = .ok true) :
    ∃ t, find_matching_table existing d m g = .ok (some t) ∧ t ∈ existing := by
  induction existing with
  | nil => simp at hsat
  | cons t rest ih =>
    obtain ⟨b, hb⟩ := hok t (List.mem_cons_self t rest)
    cases b with
    | true =>
      refine ⟨t, ?_, List.mem_cons_self t rest⟩
      rw [find_matching_table, hb]
      simp [Bind.bind, Except.bind]
    | false =>
      obtain ⟨t2, ht2, hsat2⟩ := hsat
      have ht2rest : t2 ∈ rest := by
        rcases List.mem_cons.mp ht2 with he | hm
        · subst he; rw [hb] at hsat2; simp at hsat2
        · exact hm
      obtain ⟨t3, h3, h3m⟩ := ih (fun t4 ht4 => hok t4 (List.mem_cons_of_mem t ht4))
        ⟨t2, ht2rest, hsat2⟩
      refine ⟨t3, ?_, List.mem_cons_of_mem t h3m⟩
      rw [find_matching_table, hb]
      simp only [Bind.bind, Except.bind]
      rw [if_neg (by simp)]
      exact h3

theorem matched_list_mem_of (existing : List RouteTable) (m : SubnetMapper) (g : Gateway)
    (rest : List DesiredTable) (d : DesiredTable) (t : RouteTable)
    (hd : d ∈ rest) (hm : find_matching_table existing d m g = .ok (some t)) :
    t ∈ matched_list existing m g rest :=
  List.mem_filterMap.mpr ⟨d, hd, by rw [hm]⟩

theorem matched_list_subset (existing : List RouteTable) (m : SubnetMapper) (g : Gateway)
    (rest : List DesiredTable) (t : RouteTable) (ht : t ∈ matched_list existing m g rest) :
    t ∈ existing := by
  obtain ⟨d, _, he⟩ := List.mem_filterMap.mp ht
  cases hf : find_matching_table existing d m g with
  | error e => rw [hf] at he; simp at he
  | ok o =>
    cases o with
    | none => rw [hf] at he; simp at he
    | some t2 =>
      rw [hf] at he
      simp only [Option.some.injEq] at he
      subst he
      exact (find_matching_table_ok_some existing d m g t2 hf).2

theorem matched_list_length_of_all_some (existing : List RouteTable) (m : SubnetMapper)
    (g : Gateway) : ∀ (rest : List DesiredTable),
    (∀ d ∈ rest, ∃ t, find_matching_table existing d m g = .ok (some t)) →
    (matched_list existing m g rest).length = rest.length := by
  intro rest
  induction rest with
  | nil => intro _; rfl
  | cons d rest2 ih =>
    intro h
    obtain ⟨t, ht⟩ := h d (List.mem_cons_self d rest2)
    rw [matched_list_cons_some existing m g d rest2 t ht]
    simp only [List.length_cons]
    rw [ih (fun d2 hd2 => h d2 (List.mem_cons_of_mem d hd2))]

theorem length_filter_none_add_matched (existing : List RouteTable) (m : SubnetMapper)
    (g : Gateway) : ∀ (rest : List DesiredTable),
    (∀ d ∈ rest, ∃ o, find_matching_table existing d m g = .ok o) →
    (rest.filter (fun d =>
        match find_matching_table existing d m g with
        | .ok none => true
        | _ => false)).length + (matched_list existing m g rest).length = rest.length := by
  intro rest
  induction rest with
  | nil => intro _; rfl
  | cons d rest2 ih =>
    intro h
    obtain ⟨o, ho⟩ := h d (List.mem_cons_self d rest2)
    have ih2 := ih (fun d2 hd2 => h d2 (List.mem_cons_of_mem d hd2))
    cases o with
    | none =>
      rw [List.filter_cons_of_pos (by simp [ho]),
        matched_list_cons_none existing m g d rest2 ho]
      simp only [List.length_cons]
      omega
    | some t =>
      rw [List.filter_cons_of_neg (by simp [ho]),
        matched_list_cons_some existing m g d rest2 t ho]
      simp only [List.length_cons]
      omega

theorem plan_loop_succeeds (existing : List RouteTable) (m : SubnetMapper) (g : Gateway) :
    ∀ (rest : List DesiredTable) (new : List DesiredTable) (matched old : List RouteTable),
      old.Nodup →
      (∀ d ∈ rest, ∃ t, find_matching_table existing d m g = .ok (some t) ∧ t ∈ old) →
      (matched_list existing m g rest).Nodup →
      ∃ r, plan_loop existing m g rest new matched old = .ok r := by
  intro rest
  induction rest with
  | nil => intro new matched old _ _ _; exact ⟨⟨new, matched, old⟩, rfl⟩
  | cons d rest ih =>
    intro new matched old hnd hall hml
    obtain ⟨t0, hm, ht0⟩ := hall d (List.mem_cons_self d rest)
    rw [matched_list_cons_some existing m g d rest t0 hm] at hml
    have ht0nml := (List.nodup_cons.mp hml).1
    have hml2 := (List.nodup_cons.mp hml).2
    have hall2 : ∀ d2 ∈ rest, ∃ t, find_matching_table existing d2 m g = .ok (some t) ∧
        t ∈ old.erase t0 := by
      intro d2 hd2
      obtain ⟨t2, hm2, ht2⟩ := hall d2 (List.mem_cons_of_mem d hd2)
      refine ⟨t2, hm2, ?_⟩
      have hmem2 : t2 ∈ matched_list existing m g rest :=
        matched_list_mem_of existing m g rest d2 t2 hd2 hm2
      have hne : t2 ≠ t0 := fun he => ht0nml (he ▸ hmem2)
      exact (List.mem_erase_of_ne hne).mpr ht2
    obtain ⟨r, hr⟩ := ih new (matched ++ [t0]) (old.erase t0) (hnd.erase t0) hall2 hml2
    refine ⟨r, ?_⟩
    rw [plan_loop, hm]
    show (match list_remove old t0 with
      | Except.error e => (Except.error e : Except String PlanResult)
      | Except.ok old2 => plan_loop existing m g rest new (matched ++ [t0]) old2) =
        Except.ok r
    rw [list_remove_of_mem old t0 ht0]
    exact hr

/-! ### Structure of the realized tables -/

theorem realize_tables_length (gwid : String) (m : SubnetMapper) :
    ∀ (ds : List DesiredTable) (fresh : Nat),
      (realize_tables gwid m ds fresh).length = ds.length := by
  intro ds
  induction ds with
  | nil => intro fresh; rfl
  | cons d rest ih =>
    intro fresh
    rw [realize_tables]
    simp only [List.length_cons]
    rw [ih (fresh + 1)]

theorem realize_tables_mem (gwid : String) (m : SubnetMapper) :
    ∀ (ds : List DesiredTable) (fresh : Nat) (T : RouteTable),
      T ∈ realize_tables gwid m ds fresh →
      ∃ n, fresh ≤ n ∧ ∃ d ∈ ds, T = realize_table (fresh_table_id n) gwid m d := by
  intro ds
  induction ds with
  | nil => intro fresh T h; simp [realize_tables] at h
  | cons d rest ih =>
    intro fresh T h
    rw [realize_tables] at h
    rcases List.mem_cons.mp h with he | hm
    · exact ⟨fresh, Nat.le_refl fresh, d, List.mem_cons_self d rest, he⟩
    · obtain ⟨n, hn, d2, hd2, he2⟩ := ih (fresh + 1) T hm
      exact ⟨n, Nat.le_of_succ_le hn, d2, List.mem_cons_of_mem d hd2, he2⟩

theorem realize_tables_covers (gwid : String) (m : SubnetMapper) :
    ∀ (ds : List DesiredTable) (fresh : Nat) (d : DesiredTable), d ∈ ds →
      ∃ tid, realize_table tid gwid m d ∈ realize_tables gwid m ds fresh := by
  intro ds
  induction ds with
  | nil => intro fresh d h; simp at h
  | cons d0 rest ih =>
    intro fresh d h
    rcases List.mem_cons.mp h with he | hm
    · subst he
      exact ⟨fresh_table_id fresh, by rw [realize_tables]; exact List.mem_cons_self _ _⟩
    · obtain ⟨tid, htid⟩ := ih (fresh + 1) d hm
      exact ⟨tid, by rw [realize_tables]; exact List.mem_cons_of_mem _ htid⟩

theorem realize_tables_ids_nodup (gwid : String) (m : SubnetMapper) :
    ∀ (ds : List DesiredTable) (fresh : Nat),
      ((realize_tables gwid m ds fresh).map (fun t => t.id)).Nodup := by
  intro ds
  induction ds with
  | nil => intro fresh; simp [realize_tables]
  | cons d rest ih =>
    intro fresh
    rw [realize_tables, List.map_cons, List.nodup_cons]
    refine ⟨?_, ih (fresh + 1)⟩
    intro hc
    obtain ⟨T, hT, hTe⟩ := List.mem_map.mp hc
    obtain ⟨n, hn, _, _, he⟩ := realize_tables_mem gwid m rest (fresh + 1) T hT
    rw [he] at hTe
    have h2 : fresh_table_id n = fresh_table_id fresh := hTe
    have h3 := fresh_table_id_inj n fresh h2
    omega

theorem realize_table_assoc_not_main (tid gwid : String) (m : SubnetMapper)
    (d : DesiredTable) (b : RTAssociation)
    (hb : b ∈ (realize_table tid gwid m d).associations) : b.main = false := by
  obtain ⟨c, _, s, _, he⟩ := realize_table_assoc_origin tid gwid m d b hb
  rw [he]
  rfl

/-! ### Structure of a successful run -/

/-- Provider-guaranteed well-formedness of the live route-table state: distinct
table ids, association ids unique across distinct tables, every association's
subnet resolving through the mapper, and live ids distinct from the model's
fresh-name scheme for provider-assigned new ids. -/
def WfState (subnets : List Subnet) (all_tables : List RouteTable) : Prop :=
  (all_tables.map (fun t => t.id)).Nodup ∧
  (∀ t ∈ all_tables, ∀ u ∈ all_tables, t ≠ u →
    ∀ a ∈ t.associations, ∀ b ∈ u.associations, a.id ≠ b.id) ∧
  (∀ t ∈ all_tables, ∀ a ∈ t.associations,
    (build_subnet_mapper subnets a.subnet_id).isSome = true) ∧
  (∀ t ∈ all_tables, ∀ n, t.id ≠ fresh_table_id n)

theorem make_plan_new_char (existing : List RouteTable) (requested : List DesiredTable)
    (m : SubnetMapper) (g : Gateway) (p : Plan)
    (h : make_plan existing requested m g = .ok p) :
    p.new_tables = requested.filter (fun d =>
      match find_matching_table existing d m g with
      | .ok none => true
      | _ => false) := by
  rw [make_plan] at h
  cases hr : plan_loop existing m g requested [] [] existing with
  | error e => rw [hr] at h; simp [Bind.bind, Except.bind] at h
  | ok r =>
    rw [hr] at h
    simp only [Bind.bind, Except.bind, Except.ok.injEq] at h
    subst h
    simpa using plan_loop_ok_new existing m g requested [] [] existing r hr

theorem make_plan_ok_char (existing : List RouteTable) (requested : List DesiredTable)
    (m : SubnetMapper) (g : Gateway) (p : Plan) (hnd : existing.Nodup)
    (h : make_plan existing requested m g = .ok p) :
    p.new_tables = requested.filter (fun d =>
        match find_matching_table existing d m g with
        | .ok none => true
        | _ => false) ∧
    p.matched_tables = matched_list existing m g requested ∧
    p.old_tables = existing.filter
        (fun t => !((matched_list existing m g requested).contains t)) ∧
    matched_list existing m g requested ⊆ existing ∧
    (matched_list existing m g requested).Nodup ∧
    (∀ d ∈ requested, ∃ o, find_matching_table existing d m g = .ok o) := by
  rw [make_plan] at h
  cases hr : plan_loop existing m g requested [] [] existing with
  | error e => rw [hr] at h; simp [Bind.bind, Except.bind] at h
  | ok r =>
    rw [hr] at h
    simp only [Bind.bind, Except.bind, Except.ok.injEq] at h
    obtain ⟨h1, h2, h3, h4, h5, h6⟩ :=
      plan_loop_ok_char existing m g requested [] [] existing r hnd hr
    subst h
    exact ⟨by simpa using h1, by simpa using h2, by simpa using h3, h4, h5, h6⟩

theorem run_module_ok_structure (state vpc : String) (g : Gateway) (subnets : List Subnet)
    (requested : List DesiredTable) (all_tables : List RouteTable) (fresh : Nat)
    (hwf : WfState subnets all_tables)
    (hres_req : ∀ d ∈ requested, ∀ c ∈ d.subnets,
      (build_subnet_mapper subnets c).isSome = true)
    (tr : List Op) (res : RunResult)
    (hrun : run_module state vpc g subnets requested all_tables fresh = (tr, .ok res)) :
    ∃ p, make_plan (non_main_tables all_tables) requested (build_subnet_mapper subnets) g =
        .ok p ∧
      res.final_state =
        (all_tables.filter (fun v => !((p.old_tables.map (fun t => t.id)).contains v.id))) ++
          realize_tables g.id (build_subnet_mapper subnets) p.new_tables fresh ∧
      res.route_tables = format_response res.final_state ∧
      res.changed = p.changed := by
  rw [run_module] at hrun
  split at hrun
  · exact absurd hrun (by simp)
  · rename_i p hmp
    split at hrun
    · exact absurd hrun (by simp)
    · rename_i cre_ops uu hcre
      simp only [Prod.mk.injEq, Except.ok.injEq] at hrun
      obtain ⟨htr, hres⟩ := hrun
      have hold_sub : p.old_tables ⊆ non_main_tables all_tables :=
        make_plan_old_subset _ _ _ _ p hmp
      have hall_sub : non_main_tables all_tables ⊆ all_tables :=
        fun x hx => (List.mem_filter.mp hx).1
      have hnomain : ∀ u2 ∈ p.old_tables, u2.associations.any (fun a => a.main) = false := by
        intro u2 hu2
        have h2 := (List.mem_filter.mp (hold_sub hu2)).2
        have h3 : (u2.associations.filter (fun a => a.main)).length = 0 := by simpa using h2
        rw [List.length_eq_zero] at h3
        cases hany : u2.associations.any (fun a => a.main) with
        | false => rfl
        | true =>
          obtain ⟨a, ha, hma⟩ := List.any_eq_true.mp hany
          have h4 : a ∈ u2.associations.filter (fun a => a.main) :=
            List.mem_filter.mpr ⟨ha, hma⟩
          rw [h3] at h4
          simp at h4
      have hdisj : ∀ u2 ∈ p.old_tables, ∀ v ∈ all_tables,
          ((p.old_tables.map (fun t => t.id)).contains v.id) = false →
          ∀ b ∈ v.associations, ∀ a ∈ u2.associations, b.id ≠ a.id := by
        intro u2 hu2 v hv hvf b hb a ha
        have hu2all : u2 ∈ all_tables := hall_sub (hold_sub hu2)
        have hvnm : v.id ∉ p.old_tables.map (fun t => t.id) := by simpa using hvf
        have hne : v ≠ u2 := by
          intro he
          subst he
          exact hvnm (List.mem_map_of_mem _ hu2)
        exact hwf.2.1 v hv u2 hu2all hne b hb a ha
      have hdel := applyOps_delete_tables p.old_tables all_tables hnomain hdisj
      have hfresh : ∀ u2 ∈ all_tables.filter
          (fun v => !((p.old_tables.map (fun t => t.id)).contains v.id)),
          ∀ n, fresh ≤ n → u2.id ≠ fresh_table_id n := by
        intro u2 hu2 n _
        exact hwf.2.2.2 u2 (List.mem_of_mem_filter hu2) n
      have hres_new : ∀ d ∈ p.new_tables, ∀ c ∈ d.subnets,
          (build_subnet_mapper subnets c).isSome = true := by
        intro d hd
        have hnew := make_plan_new_char _ _ _ _ p hmp
        rw [hnew] at hd
        exact hres_req d (List.mem_of_mem_filter hd)
      obtain ⟨hok2, happly⟩ := applyOps_create_tables vpc g.id (build_subnet_mapper subnets)
        p.new_tables fresh
        (all_tables.filter (fun v => !((p.old_tables.map (fun t => t.id)).contains v.id)))
        hres_new hfresh
      have hcre1 : cre_ops = (create_tables vpc g.id p.new_tables
          (build_subnet_mapper subnets) fresh).1 := by rw [hcre]
      have hfs : applyOps all_tables (delete_tables p.old_tables ++ cre_ops) =
          (all_tables.filter
            (fun v => !((p.old_tables.map (fun t => t.id)).contains v.id))) ++
            realize_tables g.id (build_subnet_mapper subnets) p.new_tables fresh := by
        rw [applyOps_append, hdel, hcre1]
        exact happly
      refine ⟨p, hmp, ?_, ?_, ?_⟩
      · rw [← hres]
        exact hfs
      · rw [← hres]
      · rw [← hres]

theorem run_module_of_plan_trivial (state vpc : String) (g : Gateway)
    (subnets : List Subnet) (requested : List DesiredTable)
    (all_tables : List RouteTable) (fresh : Nat) (matched : List RouteTable)
    (hmp : make_plan (non_main_tables all_tables) requested (build_subnet_mapper subnets) g =
      .ok ⟨[], matched, [], false⟩) :
    run_module state vpc g subnets requested all_tables fresh =
      ([], .ok ⟨false, format_response all_tables, all_tables⟩) := by
  rw [run_module, hmp]
  rfl

/-! ### Idempotence of reconciliation (C4) -/

/-- C4 (amended): under provider-guaranteed well-formedness of subnets and live
state, with a gateway id distinct from the literal local marker, for a desired
state whose subnet references all resolve: if a first run succeeds and — the
amendment forced by the counterexample — no two desired tables are satisfied by
the same live table of the resulting state, then a second run against the first
run's final state issues no create or delete operations, reports
`changed = false`, and reports exactly the first run's final live state. -/
theorem C4_second_run_noop (state1 state2 vpc : String) (g : Gateway)
    (subnets : List Subnet) (requested : List DesiredTable)
    (all_tables : List RouteTable) (fresh fresh2 : Nat)
    (hwfs : WfSubnets subnets) (hwf : WfState subnets all_tables)
    (hgl : g.id ≠ "local")
    (hresolve : ∀ d ∈ requested, ∀ c ∈ d.subnets, ∃ s ∈ subnets, s.cidr_block = c)
    (tr1 : List Op) (res1 : RunResult)
    (hrun1 : run_module state1 vpc g subnets requested all_tables fresh = (tr1, .ok res1))
    (hinj : (matched_list (non_main_tables res1.final_state)
        (build_subnet_mapper subnets) g requested).Nodup) :
    run_module state2 vpc g subnets requested res1.final_state fresh2 =
      ([], .ok ⟨false, res1.route_tables, res1.final_state⟩) := by
  have hres_req : ∀ d ∈ requested, ∀ c ∈ d.subnets,
      (build_subnet_mapper subnets c).isSome = true := by
    intro d hd c hc
    obtain ⟨s, hs, hsc⟩ := hresolve d hd c hc
    rw [← hsc, build_subnet_mapper_cidr subnets hwfs s hs]
    rfl
  have hround : ∀ d ∈ requested, ∀ c ∈ d.subnets,
      ∃ s, build_subnet_mapper subnets c = some s ∧
        build_subnet_mapper subnets s.id = some s ∧ s.cidr_block = c := by
    intro d hd c hc
    obtain ⟨s, hs, hsc⟩ := hresolve d hd c hc
    refine ⟨s, ?_, build_subnet_mapper_id subnets hwfs s hs, hsc⟩
    rw [← hsc]
    exact build_subnet_mapper_cidr subnets hwfs s hs
  obtain ⟨p, hmp, hfs, hrt, _⟩ := run_module_ok_structure state1 vpc g subnets requested
    all_tables fresh hwf hres_req tr1 res1 hrun1
  have hex1_ids : ((non_main_tables all_tables).map (fun t => t.id)).Nodup := by
    have h1 : List.Sublist (non_main_tables all_tables) all_tables := List.filter_sublist _
    exact (h1.map _).nodup hwf.1
  have hex1_nd : (non_main_tables all_tables).Nodup := List.Nodup.of_map _ hex1_ids
  have hinjid1 : ∀ x ∈ non_main_tables all_tables, ∀ y ∈ non_main_tables all_tables,
      x.id = y.id → x = y := fun x hx y hy => List.inj_on_of_nodup_map hex1_ids hx hy
  obtain ⟨hnew1, _, hold1, hml_sub1, hml_nd1, hok1⟩ :=
    make_plan_ok_char _ requested (build_subnet_mapper subnets) g p hex1_nd hmp
  have hcreated_nm : ∀ T ∈ realize_tables g.id (build_subnet_mapper subnets)
      p.new_tables fresh, ((T.associations.filter (fun a => a.main)).length == 0) = true := by
    intro T hT
    obtain ⟨n, _, d, _, he⟩ := realize_tables_mem _ _ _ _ T hT
    subst he
    have h1 : (realize_table (fresh_table_id n) g.id (build_subnet_mapper subnets)
        d).associations.filter (fun a => a.main) = [] := by
      apply List.filter_eq_nil.mpr
      intro a ha
      rw [realize_table_assoc_not_main _ _ _ _ a ha]
      simp
    rw [h1]
    rfl
  have hex2 : non_main_tables res1.final_state =
      ((non_main_tables all_tables).filter
        (fun v => !((p.old_tables.map (fun t => t.id)).contains v.id))) ++
        realize_tables g.id (build_subnet_mapper subnets) p.new_tables fresh := by
    rw [hfs]
    unfold non_main_tables
    rw [List.filter_append]
    congr 1
    · rw [List.filter_filter, List.filter_filter]
      apply List.filter_congr
      intro v _
      exact Bool.and_comm _ _
    · exact List.filter_eq_self.mpr hcreated_nm
  have hsat : ∀ d ∈ requested, ∃ t ∈ non_main_tables res1.final_state,
      table_matches t d (build_subnet_mapper subnets) g = .ok true := by
    intro d hd
    obtain ⟨o, ho⟩ := hok1 d hd
    cases o with
    | some t =>
      obtain ⟨htm, htmem⟩ := find_matching_table_ok_some _ d _ g t ho
      refine ⟨t, ?_, htm⟩
      rw [hex2]
      apply List.mem_append.mpr
      left
      apply List.mem_filter.mpr
      refine ⟨htmem, ?_⟩
      have html : t ∈ matched_list (non_main_tables all_tables)
          (build_subnet_mapper subnets) g requested :=
        matched_list_mem_of _ _ _ requested d t hd ho
      have htnold : t ∉ p.old_tables := by
        intro hc
        rw [hold1] at hc
        have hpred := List.of_mem_filter hc
        have hnot : t ∉ matched_list (non_main_tables all_tables)
            (build_subnet_mapper subnets) g requested := by simpa using hpred
        exact hnot html
      have hid : t.id ∉ p.old_tables.map (fun t => t.id) := by
        intro hc
        obtain ⟨w, hw, hwe⟩ := List.mem_map.mp hc
        have hw1 : w ∈ non_main_tables all_tables := make_plan_old_subset _ _ _ _ p hmp hw
        exact htnold ((hinjid1 w hw1 t htmem hwe) ▸ hw)
      simpa using hid
    | none =>
      have hdnew : d ∈ p.new_tables := by
        rw [hnew1]
        exact List.mem_filter.mpr ⟨hd, by rw [ho]⟩
      obtain ⟨tid, htid⟩ := realize_tables_covers g.id _ p.new_tables fresh d hdnew
      refine ⟨realize_table tid g.id _ d, ?_,
        table_matches_realize tid _ g d hgl (hround d hd)⟩
      rw [hex2]
      exact List.mem_append.mpr (Or.inr htid)
  have hres2 : ∀ t ∈ non_main_tables res1.final_state, ∀ a ∈ t.associations,
      (build_subnet_mapper subnets a.subnet_id).isSome = true := by
    intro t ht a ha
    rw [hex2] at ht
    rcases List.mem_append.mp ht with ht | ht
    · have h1 : t ∈ all_tables :=
        List.mem_of_mem_filter (List.mem_of_mem_filter ht)
      exact hwf.2.2.1 t h1 a ha
    · obtain ⟨n, _, d, _, he⟩ := realize_tables_mem _ _ _ _ t ht
      subst he
      obtain ⟨c, _, s, hs, he2⟩ := realize_table_assoc_origin _ _ _ _ a ha
      have hsmem : s ∈ subnets := build_subnet_mapper_mem subnets c s hs
      rw [he2]
      show (build_subnet_mapper subnets s.id).isSome = true
      rw [build_subnet_mapper_id subnets hwfs s hsmem]
      rfl
  have hfind2 : ∀ d ∈ requested, ∃ t,
      find_matching_table (non_main_tables res1.final_state) d
        (build_subnet_mapper subnets) g = .ok (some t) ∧
      t ∈ non_main_tables res1.final_state := by
    intro d hd
    exact find_matching_table_finds _ d _ g
      (fun t ht => table_matches_isOk t d _ g (hres2 t ht)) (hsat d hd)
  have hex2_ids : ((non_main_tables res1.final_state).map (fun t => t.id)).Nodup := by
    rw [hex2, List.map_append]
    apply List.Nodup.append
    · have h1 : List.Sublist ((non_main_tables all_tables).filter
          (fun v => !((p.old_tables.map (fun t => t.id)).contains v.id))) all_tables :=
        (List.filter_sublist _).trans (List.filter_sublist _)
      exact (h1.map _).nodup hwf.1
    · exact realize_tables_ids_nodup g.id _ p.new_tables fresh
    · intro x hx1 hx2
      obtain ⟨v, hv, hve⟩ := List.mem_map.mp hx1
      obtain ⟨T, hT, hTe⟩ := List.mem_map.mp hx2
      obtain ⟨n, _, d, _, he⟩ := realize_tables_mem _ _ _ _ T hT
      have hvall : v ∈ all_tables :=
        List.mem_of_mem_filter (List.mem_of_mem_filter hv)
      have hvid : v.id = fresh_table_id n := by
        rw [hve, ← hTe, he]
        rfl
      exact hwf.2.2.2 v hvall n hvid
  have hex2_nd : (non_main_tables res1.final_state).Nodup := List.Nodup.of_map _ hex2_ids
  have hlenA : ((non_main_tables all_tables).filter
      (fun v => !((p.old_tables.map (fun t => t.id)).contains v.id))).length =
      (matched_list (non_main_tables all_tables)
        (build_subnet_mapper subnets) g requested).length := by
    have hpred : ∀ v ∈ non_main_tables all_tables,
        (!((p.old_tables.map (fun t => t.id)).contains v.id)) =
          ((matched_list (non_main_tables all_tables)
            (build_subnet_mapper subnets) g requested).contains v) := by
      intro v hv
      cases hcm : (matched_list (non_main_tables all_tables)
          (build_subnet_mapper subnets) g requested).contains v with
      | true =>
        have hvml : v ∈ matched_list (non_main_tables all_tables)
            (build_subnet_mapper subnets) g requested := by simpa using hcm
        have hvnold : v ∉ p.old_tables := by
          intro hc
          rw [hold1] at hc
          have hpred := List.of_mem_filter hc
          have hnot : v ∉ matched_list (non_main_tables all_tables)
              (build_subnet_mapper subnets) g requested := by simpa using hpred
          exact hnot hvml
        have hid : v.id ∉ p.old_tables.map (fun t => t.id) := by
          intro hc
          obtain ⟨w, hw, hwe⟩ := List.mem_map.mp hc
          have hw1 : w ∈ non_main_tables all_tables :=
            make_plan_old_subset _ _ _ _ p hmp hw
          exact hvnold ((hinjid1 w hw1 v hv hwe) ▸ hw)
        simpa using hid
      | false =>
        have hvnml : v ∉ matched_list (non_main_tables all_tables)
            (build_subnet_mapper subnets) g requested := by
          intro hc
          rw [show ((matched_list (non_main_tables all_tables)
            (build_subnet_mapper subnets) g requested).contains v) = true
            from by simpa using hc] at hcm
          cases hcm
        have hvold : v ∈ p.old_tables := by
          rw [hold1]
          exact List.mem_filter.mpr ⟨hv, by simpa using hvnml⟩
        have hid : v.id ∈ p.old_tables.map (fun t => t.id) := List.mem_map_of_mem _ hvold
        simpa using hid
    rw [List.filter_congr hpred]
    have hsub1 : (non_main_tables all_tables).filter
        (fun v => (matched_list (non_main_tables all_tables)
          (build_subnet_mapper subnets) g requested).contains v) ⊆
        matched_list (non_main_tables all_tables)
          (build_subnet_mapper subnets) g requested := by
      intro x hx
      have h1 := List.of_mem_filter hx
      simpa using h1
    have hsub2 : matched_list (non_main_tables all_tables)
        (build_subnet_mapper subnets) g requested ⊆
        (non_main_tables all_tables).filter
          (fun v => (matched_list (non_main_tables all_tables)
            (build_subnet_mapper subnets) g requested).contains v) := by
      intro x hx
      exact List.mem_filter.mpr ⟨hml_sub1 hx, by simpa using hx⟩
    have hnd_f : ((non_main_tables all_tables).filter
        (fun v => (matched_list (non_main_tables all_tables)
          (build_subnet_mapper subnets) g requested).contains v)).Nodup :=
      hex1_nd.filter _
    exact ((hnd_f.subperm hsub1).antisymm (hml_nd1.subperm hsub2)).length_eq
  have hlen2 : (non_main_tables res1.final_state).length = requested.length := by
    rw [hex2, List.length_append, hlenA, realize_tables_length]
    have hcount := length_filter_none_add_matched (non_main_tables all_tables)
      (build_subnet_mapper subnets) g requested hok1
    rw [← hnew1] at hcount
    omega
  obtain ⟨r2, hr2⟩ := plan_loop_succeeds (non_main_tables res1.final_state)
    (build_subnet_mapper subnets) g requested [] [] (non_main_tables res1.final_state)
    hex2_nd (fun d hd => hfind2 d hd) hinj
  have hmp2 : make_plan (non_main_tables res1.final_state) requested
      (build_subnet_mapper subnets) g =
      .ok ⟨r2.new_tables, r2.matched_tables, r2.old_tables,
        decide (r2.old_tables.length > 0 ∨ r2.new_tables.length > 0)⟩ := by
    rw [make_plan, hr2]
    rfl
  obtain ⟨h2new, _, h2old, _, _, _⟩ :=
    plan_loop_ok_char _ _ g requested [] [] _ r2 hex2_nd hr2
  have h2new_nil : r2.new_tables = [] := by
    rw [h2new]
    simp only [List.nil_append]
    apply List.filter_eq_nil.mpr
    intro d hd
    obtain ⟨t, ht, _⟩ := hfind2 d hd
    simp [ht]
  have h2cover : ∀ x ∈ non_main_tables res1.final_state,
      x ∈ matched_list (non_main_tables res1.final_state)
        (build_subnet_mapper subnets) g requested := by
    have hmlsub : matched_list (non_main_tables res1.final_state)
        (build_subnet_mapper subnets) g requested ⊆ non_main_tables res1.final_state :=
      fun x hx => matched_list_subset _ _ _ _ x hx
    have hmllen : (matched_list (non_main_tables res1.final_state)
        (build_subnet_mapper subnets) g requested).length = requested.length :=
      matched_list_length_of_all_some _ _ g requested
        (fun d hd => (hfind2 d hd).imp (fun t ht => ht.1))
    have hperm := (hinj.subperm hmlsub).perm_of_length_le (by rw [hmllen, hlen2])
    intro x hx
    exact hperm.symm.subset hx
  have h2old_nil : r2.old_tables = [] := by
    rw [h2old]
    apply List.filter_eq_nil.mpr
    intro t ht
    have h1 := h2cover t ht
    simp [h1]
  have hmp2f : make_plan (non_main_tables res1.final_state) requested
      (build_subnet_mapper subnets) g = .ok ⟨[], r2.matched_tables, [], false⟩ := by
    rw [h2new_nil, h2old_nil] at hmp2
    exact hmp2
  rw [run_module_of_plan_trivial state2 vpc g subnets requested res1.final_state fresh2
    r2.matched_tables hmp2f, hrt]

/-- Counterexample to C4 as stated: two identical desired tables (with all —
vacuously zero — subnet references resolving) against an empty network: the
first run succeeds and creates two tables, but the second run aborts with
`ValueError` instead of reporting `changed = false`, because both desired
tables are satisfied by the first created table. -/
theorem C4_counterexample :
    run_module "present" "vpc-1" ⟨"igw-1"⟩ [] [⟨[], []⟩, ⟨[], []⟩] [] 0 =
      ([Op.createTable "rtb-new-" "vpc-1", Op.createTable "rtb-new-i" "vpc-1"],
       .ok ⟨true,
         format_response [⟨"rtb-new-", [local_route], []⟩, ⟨"rtb-new-i", [local_route], []⟩],
         [⟨"rtb-new-", [local_route], []⟩, ⟨"rtb-new-i", [local_route], []⟩]⟩) ∧
    run_module "present" "vpc-1" ⟨"igw-1"⟩ [] [⟨[], []⟩, ⟨[], []⟩]
        [⟨"rtb-new-", [local_route], []⟩, ⟨"rtb-new-i", [local_route], []⟩] 0 =
      ([], .error "ValueError") :=
  ⟨rfl, rfl⟩

/-- Witness for C4 (amended): a single empty desired table already realized by
one live table; the second run is a no-op. -/
theorem C4_second_run_noop_witness :
    run_module "present" "vpc-1" ⟨"igw-1"⟩ [] [⟨[], []⟩]
        [⟨"rtb-new-", [local_route], []⟩] 5 =
      ([], .ok ⟨false, format_response [⟨"rtb-new-", [local_route], []⟩],
        [⟨"rtb-new-", [local_route], []⟩]⟩) :=
  C4_second_run_noop "present" "present" "vpc-1" ⟨"igw-1"⟩ [] [⟨[], []⟩] [] 0 5
    ⟨by simp, by simp, fun s hs => absurd hs (List.not_mem_nil s)⟩
    ⟨by simp, fun t ht => absurd ht (List.not_mem_nil t),
      fun t ht => absurd ht (List.not_mem_nil t),
      fun t ht => absurd ht (List.not_mem_nil t)⟩
    (by decide)
    (by decide)
    [Op.createTable "rtb-new-" "vpc-1"]
    ⟨true, format_response [⟨"rtb-new-", [local_route], []⟩],
      [⟨"rtb-new-", [local_route], []⟩]⟩
    rfl (by decide)

end EC2RT
